import Mathlib

/-!
Shallow embedding of the nmcrun collector engine
(internal/collector/collector.go) and proofs about its behaviour.

Conventions of the embedding:
* Cluster and operating-system effects are abstracted as environment
  records of functions (one field per underlying API/OS operation);
  each model function mirrors the control flow of its Go counterpart.
* Fallible operations return `Except String α`; Go's (value, error)
  pairs become `Except`, and a nil error is `.ok`.
* YAML serialization (`objectToYAML` / `yaml.Marshal`) is modelled as a
  total, environment-supplied function: serialization failure paths are
  not modelled.
-/

namespace Nmcrun

/-- A (group, version, resource) coordinate, mirroring
`k8s.io/apimachinery/pkg/runtime/schema.GroupVersionResource`. -/
structure GVR where
  group : String
  version : String
  resource : String
deriving DecidableEq, Repr

/-- Mirrors `getCanonicalWorkloadType` (collector.go 2526-2543): maps a
workload-type alias to the canonical Kubernetes resource name, or `""` for an
unrecognized alias.  The Go `switch` with multi-value cases becomes a chain of
disjunctive conditions in the same order. -/
def getCanonicalWorkloadType (workloadType : String) : String :=
  if workloadType = "dinfw" ∨ workloadType = "distributedinferenceworkloads" then
    "distributedinferenceworkloads"
  else if workloadType = "dw" ∨ workloadType = "distributedworkloads" then
    "distributedworkloads"
  else if workloadType = "ew" ∨ workloadType = "externalworkloads" then
    "externalworkloads"
  else if workloadType = "infw" ∨ workloadType = "inferenceworkloads" then
    "inferenceworkloads"
  else if workloadType = "iw" ∨ workloadType = "interactiveworkloads" then
    "interactiveworkloads"
  else if workloadType = "tw" ∨ workloadType = "trainingworkloads" then
    "trainingworkloads"
  else ""

/-- The twelve inputs accepted by `getCanonicalWorkloadType`: the six short
aliases and the six canonical kind names. -/
def workloadTypeAliases : List String :=
  ["tw", "iw", "infw", "dw", "dinfw", "ew",
   "trainingworkloads", "interactiveworkloads", "inferenceworkloads",
   "distributedworkloads", "distributedinferenceworkloads", "externalworkloads"]

/-- The six canonical workload kinds. -/
def canonicalWorkloadKinds : List String :=
  ["trainingworkloads", "interactiveworkloads", "inferenceworkloads",
   "distributedworkloads", "distributedinferenceworkloads", "externalworkloads"]

theorem getCanonicalWorkloadType_cases (s : String) :
    getCanonicalWorkloadType s = "" ∨ getCanonicalWorkloadType s ∈ canonicalWorkloadKinds := by
  unfold getCanonicalWorkloadType
  split_ifs <;> simp [canonicalWorkloadKinds]

theorem getCanonicalWorkloadType_idem (s : String) :
    getCanonicalWorkloadType (getCanonicalWorkloadType s) = getCanonicalWorkloadType s := by
  rcases getCanonicalWorkloadType_cases s with h | h
  · rw [h]; decide
  · simp only [canonicalWorkloadKinds, List.mem_cons, List.not_mem_nil, or_false] at h
    rcases h with h | h | h | h | h | h <;> rw [h] <;> decide

theorem getCanonicalWorkloadType_domain (s : String) :
    getCanonicalWorkloadType s ≠ "" ↔ s ∈ workloadTypeAliases := by
  constructor
  · intro hne
    unfold getCanonicalWorkloadType at hne
    split_ifs at hne with h1 h2 h3 h4 h5 h6
    · rcases h1 with h | h <;> subst h <;> decide
    · rcases h2 with h | h <;> subst h <;> decide
    · rcases h3 with h | h <;> subst h <;> decide
    · rcases h4 with h | h <;> subst h <;> decide
    · rcases h5 with h | h <;> subst h <;> decide
    · rcases h6 with h | h <;> subst h <;> decide
    · exact absurd rfl hne
  · intro hs
    simp only [workloadTypeAliases, List.mem_cons, List.not_mem_nil, or_false] at hs
    rcases hs with h | h | h | h | h | h | h | h | h | h | h | h <;> subst h <;> decide

/-- C9: workload-type normalization accepts exactly twelve strings — the six
short aliases (tw, iw, infw, dw, dinfw, ew) and the six canonical kind names —
returning one of the six canonical kinds for each accepted input and the empty
string for every other input, and it is idempotent. -/
theorem workloadType_normalization_characterization (s : String) :
    (getCanonicalWorkloadType s ≠ "" ↔ s ∈ workloadTypeAliases)
    ∧ (getCanonicalWorkloadType s = "" ∨ getCanonicalWorkloadType s ∈ canonicalWorkloadKinds)
    ∧ getCanonicalWorkloadType (getCanonicalWorkloadType s) = getCanonicalWorkloadType s :=
  ⟨getCanonicalWorkloadType_domain s, getCanonicalWorkloadType_cases s,
   getCanonicalWorkloadType_idem s⟩

theorem workloadType_normalization_witness :
    getCanonicalWorkloadType "tw" ≠ "" :=
  (workloadType_normalization_characterization "tw").1.mpr (by decide)

/-! ### Content validation (validateFileContent, collector.go 2894-2917) -/

/-- ASCII whitespace recognized by the model of `strings.TrimSpace`. -/
def isSpaceChar (c : Char) : Bool :=
  c = ' ' || c = '\t' || c = '\n' || c = '\r' || c = '\x0b' || c = '\x0c'

/-- Model of `strings.TrimSpace` on a character list (ASCII whitespace). -/
def trimChars (l : List Char) : List Char :=
  ((l.dropWhile isSpaceChar).reverse.dropWhile isSpaceChar).reverse

/-- Model of `strings.Split(s, "\n")` on a character list. -/
def splitLinesChars : List Char → List (List Char)
  | [] => [[]]
  | c :: rest =>
    if c = '\n' then [] :: splitLinesChars rest
    else
      match splitLinesChars rest with
      | [] => [[c]]
      | l :: ls => (c :: l) :: ls

/-- A line counts as meaningful when its trimmed form is non-empty and does not
start with the comment character. -/
def isMeaningfulLine (l : List Char) : Bool :=
  match trimChars l with
  | [] => false
  | c :: _ => c != '#'

/-- The meaningful-line count computed by `validateFileContent`. -/
def meaningfulLineCount (content : String) : Nat :=
  (splitLinesChars (trimChars content.data)).countP isMeaningfulLine

/-- `validateFileContent`'s content test: `true` means the file is flagged as
containing no meaningful content (only comments or empty). -/
def emptyContentFlag (content : String) : Bool :=
  meaningfulLineCount content == 0

theorem splitLinesChars_ne_nil (l : List Char) : splitLinesChars l ≠ [] := by
  induction l with
  | nil => simp [splitLinesChars]
  | cons c rest ih =>
    unfold splitLinesChars
    split
    · simp
    · cases h : splitLinesChars rest <;> simp

theorem trimChars_cons_ws (c : Char) (hc : isSpaceChar c = true) (l : List Char) :
    trimChars (c :: l) = trimChars l := by
  simp [trimChars, List.dropWhile_cons, hc]

theorem isMeaningfulLine_cons_ws (c : Char) (hc : isSpaceChar c = true) (l : List Char) :
    isMeaningfulLine (c :: l) = isMeaningfulLine l := by
  simp [isMeaningfulLine, trimChars_cons_ws c hc]

/-- Whether every line of a character buffer is blank or a comment line. -/
def allCommentLines (l : List Char) : Bool :=
  (splitLinesChars l).all (fun x => !(isMeaningfulLine x))

theorem allCommentLines_cons_ws (c : Char) (hc : isSpaceChar c = true) (l : List Char) :
    allCommentLines (c :: l) = allCommentLines l := by
  by_cases hnl : c = '\n'
  · subst hnl
    simp [allCommentLines, splitLinesChars, isMeaningfulLine, trimChars]
  · cases h : splitLinesChars l with
    | nil => exact absurd h (splitLinesChars_ne_nil l)
    | cons x xs =>
      unfold allCommentLines
      rw [show splitLinesChars (c :: l) = (c :: x) :: xs by simp [splitLinesChars, hnl, h]]
      simp [h, isMeaningfulLine_cons_ws c hc]

theorem allCommentLines_dropWhile_front (l : List Char) :
    allCommentLines (l.dropWhile isSpaceChar) = allCommentLines l := by
  induction l with
  | nil => rfl
  | cons c rest ih =>
    by_cases hc : isSpaceChar c = true
    · rw [List.dropWhile_cons, if_pos hc, ih, allCommentLines_cons_ws c hc]
    · rw [List.dropWhile_cons, if_neg hc]

theorem splitLinesChars_cons_ne (c : Char) (hc : ¬ c = '\n') (l : List Char) :
    splitLinesChars (c :: l) =
      match splitLinesChars l with
      | [] => [[c]]
      | x :: xs => (c :: x) :: xs := by
  simp [splitLinesChars, hc]

theorem trimChars_append_ws (c : Char) (hc : isSpaceChar c = true) :
    ∀ x : List Char, trimChars (x ++ [c]) = trimChars x := by
  intro x
  induction x with
  | nil => simp [trimChars, List.dropWhile, hc]
  | cons a rest ih =>
    by_cases ha : isSpaceChar a = true
    · rw [List.cons_append, trimChars_cons_ws a ha, ih, trimChars_cons_ws a ha]
    · simp [trimChars, List.dropWhile_cons, ha, hc]

theorem isMeaningfulLine_append_ws (c : Char) (hc : isSpaceChar c = true) (l : List Char) :
    isMeaningfulLine (l ++ [c]) = isMeaningfulLine l := by
  simp [isMeaningfulLine, trimChars_append_ws c hc]

theorem splitLinesChars_append_newline (l : List Char) :
    splitLinesChars (l ++ ['\n']) = splitLinesChars l ++ [[]] := by
  induction l with
  | nil => rfl
  | cons c rest ih =>
    by_cases hc : c = '\n'
    · subst hc
      simp only [List.cons_append]
      rw [show splitLinesChars ('\n' :: (rest ++ ['\n'])) =
            [] :: splitLinesChars (rest ++ ['\n']) by simp [splitLinesChars]]
      rw [show splitLinesChars ('\n' :: rest) = [] :: splitLinesChars rest by
            simp [splitLinesChars]]
      rw [ih]
      rfl
    · simp only [List.cons_append]
      rw [splitLinesChars_cons_ne c hc, splitLinesChars_cons_ne c hc, ih]
      cases h : splitLinesChars rest with
      | nil => exact absurd h (splitLinesChars_ne_nil rest)
      | cons x xs => simp

/-- Append a character to the last line of a line list. -/
def appendLastLine : List (List Char) → Char → List (List Char)
  | [], c => [[c]]
  | [x], c => [x ++ [c]]
  | x :: xs, c => x :: appendLastLine xs c

theorem splitLinesChars_append_ne (c : Char) (hc : ¬ c = '\n') (l : List Char) :
    splitLinesChars (l ++ [c]) = appendLastLine (splitLinesChars l) c := by
  induction l with
  | nil => simp [splitLinesChars, hc, appendLastLine]
  | cons a rest ih =>
    by_cases ha : a = '\n'
    · subst ha
      simp only [List.cons_append]
      rw [show splitLinesChars ('\n' :: (rest ++ [c])) =
            [] :: splitLinesChars (rest ++ [c]) by simp [splitLinesChars]]
      rw [show splitLinesChars ('\n' :: rest) = [] :: splitLinesChars rest by
            simp [splitLinesChars]]
      rw [ih]
      cases h : splitLinesChars rest with
      | nil => exact absurd h (splitLinesChars_ne_nil rest)
      | cons x xs => simp [appendLastLine]
    · simp only [List.cons_append]
      rw [splitLinesChars_cons_ne a ha, splitLinesChars_cons_ne a ha, ih]
      cases h : splitLinesChars rest with
      | nil => exact absurd h (splitLinesChars_ne_nil rest)
      | cons x xs => cases xs <;> simp [appendLastLine]

theorem all_appendLastLine (c : Char) (hc : isSpaceChar c = true) :
    ∀ L : List (List Char), L ≠ [] →
      (appendLastLine L c).all (fun x => !(isMeaningfulLine x)) =
        L.all (fun x => !(isMeaningfulLine x)) := by
  intro L
  induction L with
  | nil => simp
  | cons x xs ih =>
    intro _
    cases xs with
    | nil => simp [appendLastLine, isMeaningfulLine_append_ws c hc]
    | cons y ys =>
      rw [show appendLastLine (x :: y :: ys) c = x :: appendLastLine (y :: ys) c from rfl]
      simp only [List.all_cons]
      rw [ih (by simp)]
      simp

theorem allCommentLines_append_ws (c : Char) (hc : isSpaceChar c = true) (l : List Char) :
    allCommentLines (l ++ [c]) = allCommentLines l := by
  by_cases hnl : c = '\n'
  · subst hnl
    unfold allCommentLines
    rw [splitLinesChars_append_newline]
    simp [isMeaningfulLine, trimChars]
  · unfold allCommentLines
    rw [splitLinesChars_append_ne c hnl,
        all_appendLastLine c hc _ (splitLinesChars_ne_nil l)]

/-- Drop trailing whitespace (the back half of TrimSpace). -/
def dropEndWs (l : List Char) : List Char :=
  (l.reverse.dropWhile isSpaceChar).reverse

theorem allCommentLines_dropEndWs (l : List Char) :
    allCommentLines (dropEndWs l) = allCommentLines l := by
  induction l using List.reverseRecOn with
  | nil => rfl
  | append_singleton xs c ih =>
    by_cases hc : isSpaceChar c = true
    · rw [show dropEndWs (xs ++ [c]) = dropEndWs xs by
            simp [dropEndWs, List.dropWhile_cons, hc]]
      rw [ih, allCommentLines_append_ws c hc]
    · rw [show dropEndWs (xs ++ [c]) = xs ++ [c] by
            simp [dropEndWs, List.dropWhile_cons, hc]]

theorem allCommentLines_trimChars (l : List Char) :
    allCommentLines (trimChars l) = allCommentLines l := by
  have h1 : trimChars l = dropEndWs (l.dropWhile isSpaceChar) := rfl
  rw [h1, allCommentLines_dropEndWs, allCommentLines_dropWhile_front]

theorem not_isMeaningfulLine_iff (l : List Char) :
    (¬ isMeaningfulLine l = true) ↔
      (trimChars l = [] ∨ (trimChars l).headD ' ' = '#') := by
  unfold isMeaningfulLine
  cases h : trimChars l with
  | nil => simp
  | cons c cs => simp [h]

/-- The flag is raised exactly when every non-blank line of the file, after
trimming, starts with the comment character (an empty file included). -/
theorem emptyContentFlag_iff (content : String) :
    emptyContentFlag content = true ↔
      ∀ line ∈ splitLinesChars content.data,
        trimChars line = [] ∨ (trimChars line).headD ' ' = '#' := by
  unfold emptyContentFlag meaningfulLineCount
  rw [beq_iff_eq, List.countP_eq_zero]
  have hbridge : ∀ m : List Char,
      (∀ a ∈ splitLinesChars m, ¬ isMeaningfulLine a = true) ↔ allCommentLines m = true := by
    intro m
    unfold allCommentLines
    rw [List.all_eq_true]
    constructor
    · intro h a ha
      simp [h a ha]
    · intro h a ha
      have := h a ha
      simpa using this
  rw [hbridge, allCommentLines_trimChars, ← hbridge]
  constructor
  · intro h line hline
    exact (not_isMeaningfulLine_iff line).mp (h line hline)
  · intro h line hline
    exact (not_isMeaningfulLine_iff line).mpr (h line hline)

/-! ### Credential resolution (getKubernetesConfig, collector.go 1230-1262) -/

/-- Opaque stand-in for rest.Config: the data does not matter to the claims,
only which strategy produced it. -/
structure RestConfig where
  host : String
  bearerToken : String
deriving DecidableEq, Repr

/-- The ambient environment seen by getKubernetesConfig: the outcome each of
the four authentication strategies would produce, in source order. -/
structure AuthEnv where
  inClusterConfig : Except String RestConfig
  kubeconfigAuth : Except String RestConfig
  serviceAccountTokenAuth : Except String RestConfig
  environmentAuth : Except String RestConfig

/-- The fixed error message returned when no authentication method applies
(abbreviated to its first line). -/
def authFailureMessage : String :=
  "no valid Kubernetes authentication method found"

/-- Mirrors getKubernetesConfig: try in-cluster, kubeconfig, service-account
token, then environment variables; first success wins; a fixed error when all
four strategies fail. -/
def getKubernetesConfig (e : AuthEnv) : Except String RestConfig :=
  match e.inClusterConfig with
  | .ok config => .ok config
  | .error _ =>
    match e.kubeconfigAuth with
    | .ok config => .ok config
    | .error _ =>
      match e.serviceAccountTokenAuth with
      | .ok config => .ok config
      | .error _ =>
        match e.environmentAuth with
        | .ok config => .ok config
        | .error _ => .error authFailureMessage

/-- The strategy list in the order the spec declares it. -/
def authStrategies (e : AuthEnv) : List (Except String RestConfig) :=
  [e.inClusterConfig, e.kubeconfigAuth, e.serviceAccountTokenAuth, e.environmentAuth]

/-- Spec-side policy: the session of the first succeeding strategy. -/
def firstAuthSuccess : List (Except String RestConfig) → Option RestConfig
  | [] => none
  | .ok config :: _ => some config
  | .error _ :: rest => firstAuthSuccess rest

/-- C3: credential resolution tries the four strategies in fixed order,
returns the session of the first one that succeeds (earlier failures are
discarded), and returns the fatal authentication error exactly when all four
strategies fail. -/
theorem getKubernetesConfig_spec (e : AuthEnv) :
    getKubernetesConfig e =
      ((firstAuthSuccess (authStrategies e)).elim (.error authFailureMessage) Except.ok)
    ∧ ((∃ msg, getKubernetesConfig e = .error msg) ↔
        ∀ s ∈ authStrategies e, ∃ err, s = .error err) := by
  obtain ⟨ic, kc, sa, ev⟩ := e
  cases ic <;> cases kc <;> cases sa <;> cases ev <;>
    simp [getKubernetesConfig, authStrategies, firstAuthSuccess]

theorem getKubernetesConfig_witness :
    getKubernetesConfig
      ⟨.error "not in cluster", .ok ⟨"https://h:6443", "t"⟩,
       .error "no token file", .error "no env"⟩ = .ok ⟨"https://h:6443", "t"⟩ :=
  (getKubernetesConfig_spec _).1.trans rfl

/-! ### Versioned resource resolution (getResourceAsYAML, collector.go 1939-1987) -/

/-- The gvrCandidates table of getResourceAsYAML, entry for entry. -/
def gvrCandidates (resource : String) : Option (List GVR) :=
  if resource = "runaiconfig" then some [⟨"run.ai", "v1", "runaiconfigs"⟩]
  else if resource = "configs.engine.run.ai" then some [⟨"engine.run.ai", "v1", "configs"⟩]
  else if resource = "rj" then some [⟨"run.ai", "v1", "runaijobs"⟩]
  else if resource = "pg" then
    some [⟨"scheduling.run.ai", "v1", "podgroups"⟩, ⟨"scheduling.k8s.io", "v1", "podgroups"⟩]
  else if resource = "ksvc" then some [⟨"serving.knative.dev", "v1", "services"⟩]
  else if resource = "trainingworkloads" then
    some [⟨"run.ai", "v1", "trainingworkloads"⟩, ⟨"run.ai", "v2alpha1", "trainingworkloads"⟩]
  else if resource = "interactiveworkloads" then
    some [⟨"run.ai", "v1", "interactiveworkloads"⟩, ⟨"run.ai", "v2alpha1", "interactiveworkloads"⟩]
  else if resource = "inferenceworkloads" then
    some [⟨"run.ai", "v1", "inferenceworkloads"⟩, ⟨"run.ai", "v2alpha1", "inferenceworkloads"⟩]
  else if resource = "distributedworkloads" then
    some [⟨"run.ai", "v1", "distributedworkloads"⟩, ⟨"run.ai", "v2alpha1", "distributedworkloads"⟩]
  else if resource = "distributedinferenceworkloads" then
    some [⟨"run.ai", "v1", "distributedinferenceworkloads"⟩,
          ⟨"run.ai", "v2alpha1", "distributedinferenceworkloads"⟩]
  else if resource = "externalworkloads" then
    some [⟨"run.ai", "v1", "externalworkloads"⟩, ⟨"run.ai", "v2alpha1", "externalworkloads"⟩]
  else if resource = "projects" then some [⟨"run.ai", "v2", "projects"⟩]
  else if resource = "queues" then some [⟨"scheduling.run.ai", "v2", "queues"⟩]
  else if resource = "nodepools" then some [⟨"run.ai", "v1alpha1", "nodepools"⟩]
  else if resource = "departments" then some [⟨"scheduling.run.ai", "v1", "departments"⟩]
  else none

/-- The candidate loop shared by getResourceAsYAML and dumpSchedulerResource:
`var obj; var lastErr; for gvr in list { obj, err = fetch(gvr); if err == nil
break; lastErr = err }`.  Returns (first success, last error, candidates
attempted in order). -/
def candidateLoop {α : Type} (fetch : GVR → Except String α) :
    List GVR → Option String → Option α × Option String × List GVR
  | [], lastErr => (none, lastErr, [])
  | gvr :: rest, lastErr =>
    match fetch gvr with
    | .ok a => (some a, lastErr, [gvr])
    | .error e =>
      let r := candidateLoop fetch rest (some e)
      (r.1, r.2.1, gvr :: r.2.2)

/-- Mirrors getResourceAsYAML: table lookup, then the candidate loop; on
success inside the loop the serialized object is returned, after the loop the
last error (or, for an empty candidate list, Go's `return "", nil`). -/
def getResourceAsYAML (fetch : GVR → String → String → Except String String)
    (nsp resource name : String) : Except String String :=
  match gvrCandidates resource with
  | none => .error ("unknown resource type: " ++ resource)
  | some gvrList =>
    match candidateLoop (fun gvr => fetch gvr nsp name) gvrList none with
    | (some yamlOut, _, _) => .ok yamlOut
    | (none, some lastErr, _) => .error lastErr
    | (none, none, _) => .ok ""

theorem candidateLoop_first_success {α : Type} (fetch : GVR → Except String α)
    (g : GVR) (post : List GVR) (payload : α) (hg : fetch g = .ok payload) :
    ∀ pre acc, (∀ x ∈ pre, ∃ e, fetch x = .error e) →
      (candidateLoop fetch (pre ++ g :: post) acc).1 = some payload := by
  intro pre
  induction pre with
  | nil => intro acc _; simp [candidateLoop, hg]
  | cons a rest ih =>
    intro acc hall
    obtain ⟨e, he⟩ := hall a (by simp)
    simp only [List.cons_append, candidateLoop, he]
    exact ih (some e) (fun x hx => hall x (by simp [hx]))

theorem candidateLoop_all_fail {α : Type} (fetch : GVR → Except String α)
    (errOf : GVR → String) :
    ∀ (l : List GVR) (hne : l ≠ []) (acc : Option String),
      (∀ x ∈ l, fetch x = .error (errOf x)) →
      (candidateLoop fetch l acc).1 = none
      ∧ (candidateLoop fetch l acc).2.1 = some (errOf (l.getLast hne)) := by
  intro l
  induction l with
  | nil => intro hne; exact absurd rfl hne
  | cons a rest ih =>
    intro _ acc hall
    have ha := hall a (by simp)
    cases rest with
    | nil => simp [candidateLoop, ha]
    | cons b rs =>
      have hr := ih (by simp) (some (errOf a)) (fun x hx => hall x (by simp [hx]))
      simp only [candidateLoop, ha]
      refine ⟨hr.1, ?_⟩
      rw [List.getLast_cons (by simp)]
      exact hr.2

/-- C1: for a logical resource name with an ordered candidate list, the
resolver returns the payload of the first candidate whose get succeeds,
regardless of its position; if every candidate fails it returns an error equal
to the last candidate's failure cause, discarding all earlier errors. -/
theorem getResourceAsYAML_resolution
    (fetch : GVR → String → String → Except String String)
    (ns res name : String) :
    (∀ (pre : List GVR) (g : GVR) (post : List GVR) (payload : String),
        gvrCandidates res = some (pre ++ g :: post) →
        (∀ x ∈ pre, ∃ e, fetch x ns name = .error e) →
        fetch g ns name = .ok payload →
        getResourceAsYAML fetch ns res name = .ok payload)
    ∧ (∀ (gvrList : List GVR) (errOf : GVR → String) (hne : gvrList ≠ []),
        gvrCandidates res = some gvrList →
        (∀ x ∈ gvrList, fetch x ns name = .error (errOf x)) →
        getResourceAsYAML fetch ns res name = .error (errOf (gvrList.getLast hne))) := by
  constructor
  · intro pre g post payload htable hpre hg
    have h := candidateLoop_first_success (fun gvr => fetch gvr ns name) g post payload hg pre
      none hpre
    rcases hl : candidateLoop (fun gvr => fetch gvr ns name) (pre ++ g :: post) none with
      ⟨obj, lastErr, attempted⟩
    rw [hl] at h
    simp at h
    subst h
    simp only [getResourceAsYAML, htable, hl]
  · intro gvrList errOf hne htable hall
    have h := candidateLoop_all_fail (fun gvr => fetch gvr ns name) errOf gvrList hne none hall
    rcases hl : candidateLoop (fun gvr => fetch gvr ns name) gvrList none with
      ⟨obj, lastErr, attempted⟩
    rw [hl] at h
    obtain ⟨h1, h2⟩ := h
    simp at h1 h2
    subst h1
    subst h2
    simp only [getResourceAsYAML, htable, hl]

/-- A fetch function for the witness: the first podgroups coordinate fails,
the second succeeds. -/
def witnessFetch : GVR → String → String → Except String String :=
  fun gvr _ _ =>
    if gvr.group = "scheduling.run.ai" then .error "the server could not find the requested resource"
    else .ok "kind: PodGroup"

theorem getResourceAsYAML_resolution_witness :
    getResourceAsYAML witnessFetch "runai-proj" "pg" "wl" = .ok "kind: PodGroup" :=
  (getResourceAsYAML_resolution witnessFetch "runai-proj" "pg" "wl").1
    [⟨"scheduling.run.ai", "v1", "podgroups"⟩] ⟨"scheduling.k8s.io", "v1", "podgroups"⟩ []
    "kind: PodGroup" rfl
    (by
      intro x hx
      simp only [List.mem_singleton] at hx
      subst hx
      exact ⟨_, rfl⟩)
    rfl

/-! ### Workload bundle (CollectWorkloadInfo, collector.go 2140-2239) -/

/-- Network operations performed against the cluster, for tracing. -/
inductive NetOp
  | namespaceList (selector : String)
  | dynGet (gvr : GVR) (nsp name : String)
  | podList (nsp selector : String)
  | pgList (gvr : GVR) (nsp selector : String)
  | podGet (nsp pod : String)
  | logStream (nsp pod container : String)
deriving DecidableEq, Repr

/-- Environment of a workload-bundle run: one field per cluster/OS operation. -/
structure WEnv where
  namespacesByLabel : String → Except String (List String)
  fetch : GVR → String → String → Except String String
  podsByLabel : String → String → Except String (List String)
  pgListOp : GVR → String → String → Except String (List String)
  podContainers : String → String → Except String (List String × List String)
  containerLog : String → String → String → Except String String
  writeOk : String → Bool
  createOk : String → Bool

/-- Result of one workload collection helper: outcome, network calls made, and
files successfully written, in order. -/
structure WOut (α : Type) where
  res : Except String α
  net : List NetOp
  files : List String

/-- Model of strings.TrimSpace on strings. -/
def trimString (s : String) : String := String.mk (trimChars s.data)

/-- Mirrors getNamespaceByLabel (collector.go 2027-2040). -/
def getNamespaceByLabel (env : WEnv) (selector : String) : WOut String :=
  match env.namespacesByLabel selector with
  | .error e => ⟨.error e, [.namespaceList selector], []⟩
  | .ok [] => ⟨.error ("no namespace found with label: " ++ selector), [.namespaceList selector], []⟩
  | .ok (n :: _) => ⟨.ok n, [.namespaceList selector], []⟩

/-- getResourceAsYAML together with the network calls it performs (one dynamic
Get per candidate attempted). -/
def getResourceAsYAMLNet (env : WEnv) (nsp resource name : String) :
    Except String String × List NetOp :=
  match gvrCandidates resource with
  | none => (.error ("unknown resource type: " ++ resource), [])
  | some gvrList =>
    let r := candidateLoop (fun gvr => env.fetch gvr nsp name) gvrList none
    ((match r.1, r.2.1 with
      | some yamlOut, _ => .ok yamlOut
      | none, some lastErr => .error lastErr
      | none, none => .ok ""),
     r.2.2.map (fun gvr => .dynGet gvr nsp name))

/-- Mirrors getWorkloadYAML (collector.go 2546-2561). -/
def getWorkloadYAML (env : WEnv) (nsp workload canonicalType typeSafe : String) : WOut String :=
  let filename := workload ++ "_" ++ typeSafe ++ "_workload.yaml"
  match getResourceAsYAMLNet env nsp canonicalType workload with
  | (.error e, net) => ⟨.error e, net, []⟩
  | (.ok _, net) =>
    if env.writeOk filename then ⟨.ok filename, net, [filename]⟩
    else ⟨.error ("write failed: " ++ filename), net, []⟩

/-- Mirrors getRunAIJobYAML (collector.go 2564-2579). -/
def getRunAIJobYAML (env : WEnv) (nsp workload typeSafe : String) : WOut String :=
  let filename := workload ++ "_" ++ typeSafe ++ "_runaijob.yaml"
  match getResourceAsYAMLNet env nsp "rj" workload with
  | (.error e, net) => ⟨.error e, net, []⟩
  | (.ok _, net) =>
    if env.writeOk filename then ⟨.ok filename, net, [filename]⟩
    else ⟨.error ("write failed: " ++ filename), net, []⟩

/-- Mirrors getPodYAML (collector.go 2582-2601): the whole labelled PodList is
serialized, an empty list included. -/
def getPodYAML (env : WEnv) (nsp workload typeSafe : String) : WOut String :=
  let filename := workload ++ "_" ++ typeSafe ++ "_pod.yaml"
  let sel := "workloadName=" ++ workload
  match env.podsByLabel nsp sel with
  | .error e => ⟨.error e, [.podList nsp sel], []⟩
  | .ok _ =>
    if env.writeOk filename then ⟨.ok filename, [.podList nsp sel], [filename]⟩
    else ⟨.error ("write failed: " ++ filename), [.podList nsp sel], []⟩

/-- The two podgroup coordinates of getPodGroupsWithLabels (collector.go 1997). -/
def pgGvrRunai : GVR := ⟨"scheduling.run.ai", "v1", "podgroups"⟩

def pgGvrK8s : GVR := ⟨"scheduling.k8s.io", "v1", "podgroups"⟩

/-- Mirrors getPodGroupsWithLabels: RunAI's API group first, the standard group
as a fallback. -/
def getPodGroupsWithLabels (env : WEnv) (nsp sel : String) :
    Except String (List String) × List NetOp :=
  match env.pgListOp pgGvrRunai nsp sel with
  | .ok items => (.ok items, [.pgList pgGvrRunai nsp sel])
  | .error _ => (env.pgListOp pgGvrK8s nsp sel, [.pgList pgGvrRunai nsp sel, .pgList pgGvrK8s nsp sel])

/-- Mirrors getPodGroupYAML (collector.go 2604-2630): an empty result list is
an error ("not found"), tolerated by the caller. -/
def getPodGroupYAML (env : WEnv) (nsp workload typeSafe : String) : WOut String :=
  let filename := workload ++ "_" ++ typeSafe ++ "_podgroup.yaml"
  let sel := "workloadName=" ++ workload
  match getPodGroupsWithLabels env nsp sel with
  | (.error e, net) => ⟨.error ("failed to search for PodGroups: " ++ e), net, []⟩
  | (.ok [], net) => ⟨.error "PodGroup not found (this is normal for some workload types)", net, []⟩
  | (.ok (_ :: _), net) =>
    if env.writeOk filename then ⟨.ok filename, net, [filename]⟩
    else ⟨.error ("write failed: " ++ filename), net, []⟩

/-- The per-container loop of getPodLogs: log fetch then write; failures of
either are skipped. -/
def collectContainerLogFiles (env : WEnv) (nsp workload typeSafe pod : String) :
    List String → List NetOp × List String
  | [] => ([], [])
  | ctr :: rest =>
    let logFile := workload ++ "_" ++ typeSafe ++ "_pod_logs_" ++ ctr ++ ".log"
    let tail := collectContainerLogFiles env nsp workload typeSafe pod rest
    match env.containerLog nsp pod ctr with
    | .ok _ =>
      (.logStream nsp pod ctr :: tail.1,
       if env.writeOk logFile then logFile :: tail.2 else tail.2)
    | .error _ => (.logStream nsp pod ctr :: tail.1, tail.2)

/-- The per-pod loop of getPodLogs: container lookup failures skip the pod;
init containers come before regular containers. -/
def collectPodLogFilesForPods (env : WEnv) (nsp workload typeSafe : String) :
    List String → List NetOp × List String
  | [] => ([], [])
  | pod :: rest =>
    let tail := collectPodLogFilesForPods env nsp workload typeSafe rest
    match env.podContainers nsp pod with
    | .error _ => (.podGet nsp pod :: tail.1, tail.2)
    | .ok (regs, inits) =>
      let cs := collectContainerLogFiles env nsp workload typeSafe pod (inits ++ regs)
      (.podGet nsp pod :: (cs.1 ++ tail.1), cs.2 ++ tail.2)

/-- Mirrors getPodLogs (collector.go 2633-2690): no pods is a success with no
files. -/
def getPodLogs (env : WEnv) (nsp workload typeSafe : String) : WOut (List String) :=
  let sel := "workloadName=" ++ workload
  match env.podsByLabel nsp sel with
  | .error e => ⟨.error e, [.podList nsp sel], []⟩
  | .ok pods =>
    if pods = [] then ⟨.ok [], [.podList nsp sel], []⟩
    else
      let r := collectPodLogFilesForPods env nsp workload typeSafe pods
      ⟨.ok r.2, .podList nsp sel :: r.1, r.2⟩

/-- Mirrors getKSVCYAML (collector.go 2693-2708). -/
def getKSVCYAML (env : WEnv) (nsp workload typeSafe : String) : WOut String :=
  let filename := workload ++ "_" ++ typeSafe ++ "_ksvc.yaml"
  match getResourceAsYAMLNet env nsp "ksvc" workload with
  | (.error e, net) => ⟨.error e, net, []⟩
  | (.ok _, net) =>
    if env.writeOk filename then ⟨.ok filename, net, [filename]⟩
    else ⟨.error ("write failed: " ++ filename), net, []⟩

/-- Mirrors createWorkloadArchive (collector.go 2711-2736): an empty file list
is an error raised before the archive file is even created; otherwise each
file is added with its own working-root-relative name as the entry name. -/
def createWorkloadArchive (env : WEnv) (archiveName : String) (files : List String) :
    Except String Unit × List (String × List String) :=
  if files = [] then (.error "no files to archive", [])
  else if env.createOk archiveName then (.ok (), [(archiveName, files)])
  else (.error ("failed to create archive file: " ++ archiveName), [])

/-- The six collection steps of CollectWorkloadInfo, in source order; each step
failure is reported and skipped, successes contribute their files. -/
def collectWorkloadSteps (env : WEnv) (nsp name canonicalType typeSafe : String) :
    List NetOp × List String :=
  let s1 := getWorkloadYAML env nsp name canonicalType typeSafe
  let s2 := getRunAIJobYAML env nsp name typeSafe
  let s3 := getPodYAML env nsp name typeSafe
  let s4 := getPodGroupYAML env nsp name typeSafe
  let s5 := getPodLogs env nsp name typeSafe
  if canonicalType = "inferenceworkloads" then
    let s6 := getKSVCYAML env nsp name typeSafe
    (s1.net ++ s2.net ++ s3.net ++ s4.net ++ s5.net ++ s6.net,
     s1.files ++ s2.files ++ s3.files ++ s4.files ++ s5.files ++ s6.files)
  else
    (s1.net ++ s2.net ++ s3.net ++ s4.net ++ s5.net,
     s1.files ++ s2.files ++ s3.files ++ s4.files ++ s5.files)

/-- Overall outcome of CollectWorkloadInfo: result, network trace, files left
on disk at the end, archives created (name and entry list). -/
structure WRun where
  res : Except String Unit
  net : List NetOp
  files : List String
  archives : List (String × List String)

/-- The sealing tail of CollectWorkloadInfo: archive the collected files; on
success the individual files are deleted, on failure they are left behind. -/
def sealWorkloadRun (env : WEnv) (archiveName : String) (nsrNet : List NetOp)
    (steps : List NetOp × List String) : WRun :=
  match createWorkloadArchive env archiveName steps.2 with
  | (.error e, _) => ⟨.error ("failed to create archive: " ++ e), nsrNet ++ steps.1, steps.2, []⟩
  | (.ok _, archs) => ⟨.ok (), nsrNet ++ steps.1, [], archs⟩

/-- Mirrors CollectWorkloadInfo (collector.go 2141-2239): alias validation,
namespace resolution by project label, the collection steps, sealing. -/
def CollectWorkloadInfo (env : WEnv) (timestamp project workloadType name : String) : WRun :=
  let canonicalType := getCanonicalWorkloadType workloadType
  if canonicalType = "" then
    ⟨.error ("invalid workload type: " ++ workloadType ++
       ". Valid types: tw, iw, infw, dw, dinfw, ew"), [], [], []⟩
  else
    match getNamespaceByLabel env ("runai/queue=" ++ project) with
    | ⟨.error _, nsrNet, _⟩ =>
      ⟨.error ("no namespace found for project: " ++ project), nsrNet, [], []⟩
    | ⟨.ok ns0, nsrNet, _⟩ =>
      if trimString ns0 = "" then
        ⟨.error ("no namespace found for project: " ++ project), nsrNet, [], []⟩
      else
        let typeSafe := workloadType.replace "/" "_"
        let archiveName := project ++ "_" ++ typeSafe ++ "_" ++ name ++ "_" ++ timestamp ++ ".tar.gz"
        sealWorkloadRun env archiveName nsrNet
          (collectWorkloadSteps env (trimString ns0) name canonicalType typeSafe)

theorem getWorkloadYAML_net_ts (env : WEnv) (nsp wl ct t1 t2 : String) :
    (getWorkloadYAML env nsp wl ct t1).net = (getWorkloadYAML env nsp wl ct t2).net := by
  unfold getWorkloadYAML
  rcases h : getResourceAsYAMLNet env nsp ct wl with ⟨r, net⟩
  cases r <;> simp only [h] <;> (try dsimp only) <;> (try split) <;> (try split) <;> rfl

theorem getRunAIJobYAML_net_ts (env : WEnv) (nsp wl t1 t2 : String) :
    (getRunAIJobYAML env nsp wl t1).net = (getRunAIJobYAML env nsp wl t2).net := by
  unfold getRunAIJobYAML
  rcases h : getResourceAsYAMLNet env nsp "rj" wl with ⟨r, net⟩
  cases r <;> simp only [h] <;> (try dsimp only) <;> (try split) <;> (try split) <;> rfl

theorem getPodYAML_net_ts (env : WEnv) (nsp wl t1 t2 : String) :
    (getPodYAML env nsp wl t1).net = (getPodYAML env nsp wl t2).net := by
  unfold getPodYAML
  rcases h : env.podsByLabel nsp ("workloadName=" ++ wl) with e | pods <;>
    simp only [h] <;> (try dsimp only) <;> (try split) <;> (try split) <;> rfl

theorem getPodGroupYAML_net_ts (env : WEnv) (nsp wl t1 t2 : String) :
    (getPodGroupYAML env nsp wl t1).net = (getPodGroupYAML env nsp wl t2).net := by
  unfold getPodGroupYAML
  rcases h : getPodGroupsWithLabels env nsp ("workloadName=" ++ wl) with ⟨r, net⟩
  rcases r with e | items
  · simp only [h]
  · cases items <;> simp only [h] <;> (try dsimp only) <;> (try split) <;> (try split) <;> rfl

theorem collectContainerLogFiles_net_ts (env : WEnv) (nsp wl pod t1 t2 : String) :
    ∀ cs : List String,
      (collectContainerLogFiles env nsp wl t1 pod cs).1 =
        (collectContainerLogFiles env nsp wl t2 pod cs).1 := by
  intro cs
  induction cs with
  | nil => rfl
  | cons c rest ih =>
    unfold collectContainerLogFiles
    cases env.containerLog nsp pod c <;> simp [ih]

theorem collectPodLogFilesForPods_net_ts (env : WEnv) (nsp wl t1 t2 : String) :
    ∀ pods : List String,
      (collectPodLogFilesForPods env nsp wl t1 pods).1 =
        (collectPodLogFilesForPods env nsp wl t2 pods).1 := by
  intro pods
  induction pods with
  | nil => rfl
  | cons pod rest ih =>
    unfold collectPodLogFilesForPods
    rcases h : env.podContainers nsp pod with e | ⟨regs, inits⟩
    · simp [ih]
    · simp [ih, collectContainerLogFiles_net_ts env nsp wl pod t1 t2 (inits ++ regs)]

theorem getPodLogs_net_ts (env : WEnv) (nsp wl t1 t2 : String) :
    (getPodLogs env nsp wl t1).net = (getPodLogs env nsp wl t2).net := by
  unfold getPodLogs
  rcases h : env.podsByLabel nsp ("workloadName=" ++ wl) with e | pods
  · simp only [h]
  · simp only [h]
    split
    · rfl
    · simp [collectPodLogFilesForPods_net_ts env nsp wl t1 t2 pods]

theorem getKSVCYAML_net_ts (env : WEnv) (nsp wl t1 t2 : String) :
    (getKSVCYAML env nsp wl t1).net = (getKSVCYAML env nsp wl t2).net := by
  unfold getKSVCYAML
  rcases h : getResourceAsYAMLNet env nsp "ksvc" wl with ⟨r, net⟩
  cases r <;> simp only [h] <;> (try dsimp only) <;> (try split) <;> (try split) <;> rfl

theorem collectWorkloadSteps_net_ts (env : WEnv) (nsp nm ct t1 t2 : String) :
    (collectWorkloadSteps env nsp nm ct t1).1 = (collectWorkloadSteps env nsp nm ct t2).1 := by
  unfold collectWorkloadSteps
  split <;>
    dsimp only <;>
    rw [getWorkloadYAML_net_ts env nsp nm ct t1 t2, getRunAIJobYAML_net_ts env nsp nm t1 t2,
      getPodYAML_net_ts env nsp nm t1 t2, getPodGroupYAML_net_ts env nsp nm t1 t2,
      getPodLogs_net_ts env nsp nm t1 t2] <;>
    (try rw [getKSVCYAML_net_ts env nsp nm t1 t2])

theorem sealWorkloadRun_net (env : WEnv) (an : String) (nsrNet : List NetOp)
    (steps : List NetOp × List String) :
    (sealWorkloadRun env an nsrNet steps).net = nsrNet ++ steps.1 := by
  unfold sealWorkloadRun
  rcases h : createWorkloadArchive env an steps.2 with ⟨r, a⟩
  cases r <;> simp [h]

/-- C4: an unrecognized workload-type alias makes CollectWorkloadInfo fail with
an input-validation error before any network call and with no files produced;
a recognized alias is normalized first, so the run performs exactly the
network calls of the run on the canonical kind. -/
theorem CollectWorkloadInfo_alias_validation (env : WEnv) (ts project wtAlias nm : String) :
    (getCanonicalWorkloadType wtAlias = "" →
      CollectWorkloadInfo env ts project wtAlias nm =
        ⟨.error ("invalid workload type: " ++ wtAlias ++
           ". Valid types: tw, iw, infw, dw, dinfw, ew"), [], [], []⟩)
    ∧ (getCanonicalWorkloadType wtAlias ≠ "" →
      (CollectWorkloadInfo env ts project wtAlias nm).net =
        (CollectWorkloadInfo env ts project (getCanonicalWorkloadType wtAlias) nm).net) := by
  constructor
  · intro h
    simp [CollectWorkloadInfo, h]
  · intro h
    unfold CollectWorkloadInfo
    rw [getCanonicalWorkloadType_idem wtAlias]
    rw [if_neg h, if_neg h]
    rcases hw : getNamespaceByLabel env ("runai/queue=" ++ project) with ⟨r, nsrNet, fls⟩
    cases r with
    | error e => rfl
    | ok ns0 =>
      dsimp only
      split
      · rfl
      · rw [sealWorkloadRun_net, sealWorkloadRun_net,
          collectWorkloadSteps_net_ts env (trimString ns0) nm (getCanonicalWorkloadType wtAlias)
            (wtAlias.replace "/" "_") ((getCanonicalWorkloadType wtAlias).replace "/" "_")]

/-- A concrete environment in which the namespace resolves but every
collection step fails. -/
def wEnvAllFail : WEnv where
  namespacesByLabel := fun _ => .ok ["proj-ns"]
  fetch := fun _ _ _ => .error "the server could not find the requested resource"
  podsByLabel := fun _ _ => .error "connection refused"
  pgListOp := fun _ _ _ => .error "connection refused"
  podContainers := fun _ _ => .error "connection refused"
  containerLog := fun _ _ _ => .error "connection refused"
  writeOk := fun _ => true
  createOk := fun _ => true

theorem CollectWorkloadInfo_alias_validation_witness :
    CollectWorkloadInfo wEnvAllFail "T" "proj" "bogus" "wl" =
      ⟨.error "invalid workload type: bogus. Valid types: tw, iw, infw, dw, dinfw, ew",
       [], [], []⟩ := by
  have h := (CollectWorkloadInfo_alias_validation wEnvAllFail "T" "proj" "bogus" "wl").1 (by decide)
  rw [h]
  rfl

/-- C10: a workload run whose step-file list is empty never seals an archive:
createWorkloadArchive rejects the empty list and CollectWorkloadInfo reports
failure with no archive file created. -/
theorem CollectWorkloadInfo_no_empty_archive (env : WEnv) (ts project wtAlias nm : String) :
    (∀ archiveName, createWorkloadArchive env archiveName [] = (.error "no files to archive", []))
    ∧ (getCanonicalWorkloadType wtAlias ≠ "" →
       ∀ ns0, (getNamespaceByLabel env ("runai/queue=" ++ project)).res = .ok ns0 →
       ¬ trimString ns0 = "" →
       (collectWorkloadSteps env (trimString ns0) nm (getCanonicalWorkloadType wtAlias)
          (wtAlias.replace "/" "_")).2 = [] →
       (CollectWorkloadInfo env ts project wtAlias nm).res =
           .error ("failed to create archive: " ++ "no files to archive")
       ∧ (CollectWorkloadInfo env ts project wtAlias nm).archives = []
       ∧ (CollectWorkloadInfo env ts project wtAlias nm).files = []) := by
  refine ⟨fun _ => rfl, ?_⟩
  intro h ns0 hns hz hsteps
  unfold CollectWorkloadInfo
  rw [if_neg h]
  rcases hw : getNamespaceByLabel env ("runai/queue=" ++ project) with ⟨r, nsrNet, fls⟩
  rw [hw] at hns
  dsimp only at hns
  subst hns
  dsimp only
  rw [if_neg hz]
  unfold sealWorkloadRun
  rw [hsteps]
  exact ⟨rfl, rfl, rfl⟩

theorem CollectWorkloadInfo_no_empty_archive_witness :
    (CollectWorkloadInfo wEnvAllFail "T" "proj" "tw" "wl").res =
      .error ("failed to create archive: " ++ "no files to archive") :=
  ((CollectWorkloadInfo_no_empty_archive wEnvAllFail "T" "proj" "tw" "wl").2
    (by decide) "proj-ns" rfl (by decide) rfl).1

/-! ### Namespace bundle (Run / processNamespace, collector.go 1355-1772) -/

/-- A flat model of the relevant filesystem state: directories and files
(path with content), in creation order. -/
structure FS where
  dirs : List String
  files : List (String × String)
deriving DecidableEq, Repr

/-- filepath.Join cleans a leading "./" (Join("./x", f) = "x/f"); this strips
one such leading piece. -/
def cleanDot (p : String) : String :=
  match p.data with
  | '.' :: '/' :: rest => String.mk rest
  | _ => p

/-- Model of filepath.Join for the joins the collector performs. -/
def pathJoin (dir file : String) : String := cleanDot dir ++ "/" ++ file

/-- Boolean test that the first list is a leading piece of the second. -/
def charsLead : List Char → List Char → Bool
  | [], _ => true
  | _ :: _, [] => false
  | a :: as, b :: bs => a == b && charsLead as bs

/-- Whether `pre` is a leading piece of `s`. -/
def leadsWith (pre s : String) : Bool := charsLead pre.data s.data

theorem charsLead_append (a b : List Char) : charsLead a (a ++ b) = true := by
  induction a with
  | nil => rfl
  | cons x xs ih => simp [charsLead, ih]

theorem leadsWith_append (a b : String) : leadsWith a (a ++ b) = true := by
  unfold leadsWith
  rw [show (a ++ b).data = a.data ++ b.data from String.data_append a b]
  exact charsLead_append a.data b.data

/-- The files inside a working directory (what filepath.Walk visits below the
root), with their full walk paths. -/
def filesUnder (fs : FS) (dir : String) : List String :=
  (fs.files.filter (fun pc => leadsWith (cleanDot dir ++ "/") pc.1)).map Prod.fst

/-- Model of os.RemoveAll on a directory. -/
def removeAllUnder (fs : FS) (dir : String) : FS :=
  ⟨fs.dirs.filter (fun d => !(d == cleanDot dir || leadsWith (cleanDot dir ++ "/") d)),
   fs.files.filter (fun pc => !(leadsWith (cleanDot dir ++ "/") pc.1))⟩

/-- Observable events of a namespace-bundle run. -/
inductive NsEv
  | nsCheck (nsp : String)
  | mkdir (d : String)
  | createF (f : String)
  | write (f : String)
  | attemptStep (a : String)
  | archive (name : String) (entries : List String)
  | removeDir (d : String)
deriving DecidableEq, Repr

/-- Environment of a namespace-bundle run: one field per cluster/OS
operation. -/
structure NsEnv where
  nsExists : String → Bool
  mkdirOk : String → Bool
  createOk : String → Bool
  writeOk : String → Bool
  pods : String → Except String (List String)
  podContainers : String → String → Except String (List String × List String)
  containerLog : String → String → String → Except String String
  helmReleasesInfo : Except String String
  helmReleasesInfoBackend : Except String String
  configMap : String → String → Except String String
  podsWide : String → Except String String
  nodesWide : Except String String
  fetch : GVR → String → String → Except String String
  archiveOk : String → Bool
  removeOk : String → Bool

/-- Outcome of a namespace-bundle phase: result, filesystem, events. -/
structure NsOut where
  res : Except String Unit
  fs : FS
  evs : List NsEv

/-- os.WriteFile: on success the file is recorded with its content. -/
def writeFileFS (env : NsEnv) (fs : FS) (f content : String) : FS × List NsEv :=
  if env.writeOk f then (⟨fs.dirs, fs.files ++ [(f, content)]⟩, [.write f]) else (fs, [])

/-- The container loop of collectPodLogs: fetch the log, write
pod_container.log (or pod_container_init.log); failures warn and continue. -/
def podContainerLoop (env : NsEnv) (nsp logsSubDir pod suffix : String) :
    FS → List String → FS × List NsEv
  | fs, [] => (fs, [])
  | fs, ctr :: rest =>
    let logFile := pathJoin logsSubDir (pod ++ "_" ++ ctr ++ suffix ++ ".log")
    match env.containerLog nsp pod ctr with
    | .error _ => podContainerLoop env nsp logsSubDir pod suffix fs rest
    | .ok out =>
      let w := writeFileFS env fs logFile out
      let t := podContainerLoop env nsp logsSubDir pod suffix w.1 rest
      (t.1, w.2 ++ t.2)

/-- The pod loop of collectPodLogs: container lookup failure skips the pod;
regular containers are processed before init containers. -/
def podLoop (env : NsEnv) (nsp logsSubDir : String) : FS → List String → FS × List NsEv
  | fs, [] => (fs, [])
  | fs, pod :: rest =>
    match env.podContainers nsp pod with
    | .error _ => podLoop env nsp logsSubDir fs rest
    | .ok (regs, inits) =>
      let a := podContainerLoop env nsp logsSubDir pod "" fs regs
      let b := podContainerLoop env nsp logsSubDir pod "_init" a.1 inits
      let t := podLoop env nsp logsSubDir b.1 rest
      (t.1, a.2 ++ b.2 ++ t.2)

/-- Mirrors collectPodLogs (collector.go 1510-1583): create the logs
subdirectory, list pods, loop; an empty pod list is a success. -/
def collectPodLogs (env : NsEnv) (nsp logDir : String) (fs : FS) : NsOut :=
  if env.mkdirOk (pathJoin logDir "logs") then
    let logsSubDir := pathJoin logDir "logs"
    let fs0 : FS := ⟨fs.dirs ++ [logsSubDir], fs.files⟩
    match env.pods nsp with
    | .error e => ⟨.error e, fs0, [.mkdir logsSubDir]⟩
    | .ok pods =>
      let r := podLoop env nsp logsSubDir fs0 pods
      ⟨.ok (), r.1, .mkdir logsSubDir :: r.2⟩
  else ⟨.error ("failed to create " ++ pathJoin logDir "logs"), fs, []⟩

/-- The six actions of collectRunaiInfo (collector.go 1607-1631), in order:
display name, output filename, operation outcome. -/
def runaiActions (env : NsEnv) : List (String × String × Except String String) :=
  [("Helm releases info", "helm_releases_info.txt", env.helmReleasesInfo),
   ("ConfigMap runai-public", "cm_runai-public.yaml", env.configMap "runai" "runai-public"),
   ("Pod list for runai namespace", "pod-list_runai.txt", env.podsWide "runai"),
   ("Node list", "node-list.txt", env.nodesWide),
   ("RunAI config", "runaiconfig.yaml", getResourceAsYAML env.fetch "runai" "runaiconfig" "runai"),
   ("Engine config", "engine-config.yaml",
    getResourceAsYAML env.fetch "runai" "configs.engine.run.ai" "engine-config")]

/-- The two actions of collectBackendInfo (collector.go 1658-1670). -/
def backendActions (env : NsEnv) : List (String × String × Except String String) :=
  [("Pod list for runai-backend namespace", "pod-list_runai-backend.txt",
    env.podsWide "runai-backend"),
   ("Helm releases info (backend)", "helm_releases_info_backend.txt",
    env.helmReleasesInfoBackend)]

/-- The shared action loop: a failed action or failed write is a warning; the
loop always continues to the next action. -/
def actionLoop (env : NsEnv) (logDir : String) :
    FS → List (String × String × Except String String) → FS × List NsEv
  | fs, [] => (fs, [])
  | fs, (aname, afile, ares) :: rest =>
    match ares with
    | .error _ =>
      let t := actionLoop env logDir fs rest
      (t.1, .attemptStep aname :: t.2)
    | .ok out =>
      let w := writeFileFS env fs (pathJoin logDir afile) out
      let t := actionLoop env logDir w.1 rest
      (t.1, .attemptStep aname :: (w.2 ++ t.2))

/-- Mirrors collectRunaiInfo: runs the action table; always returns nil. -/
def collectRunaiInfo (env : NsEnv) (logDir : String) (fs : FS) : NsOut :=
  let r := actionLoop env logDir fs (runaiActions env)
  ⟨.ok (), r.1, r.2⟩

/-- Mirrors collectBackendInfo: runs the action table; always returns nil. -/
def collectBackendInfo (env : NsEnv) (logDir : String) (fs : FS) : NsOut :=
  let r := actionLoop env logDir fs (backendActions env)
  ⟨.ok (), r.1, r.2⟩

/-- Mirrors collectAdditionalInfo (collector.go 1596-1604). -/
def collectAdditionalInfo (env : NsEnv) (nsp logDir : String) (fs : FS) : NsOut :=
  if nsp = "runai" then collectRunaiInfo env logDir fs
  else if nsp = "runai-backend" then collectBackendInfo env logDir fs
  else ⟨.ok (), fs, []⟩

/-- The straight-line middle of processNamespace once the working directory
and the script log have been created: script log header, pod logs (warnings
only), namespace-specific info (warnings only). -/
def processNamespaceCore (env : NsEnv) (nsp logDir : String) (fs : FS) : FS × List NsEv :=
  let scriptLogPath := pathJoin logDir "script.log"
  let fs1 : FS := ⟨fs.dirs ++ [cleanDot logDir], fs.files ++ [(scriptLogPath, "")]⟩
  let pl := collectPodLogs env nsp logDir fs1
  let ai := collectAdditionalInfo env nsp logDir pl.fs
  (ai.fs, [.mkdir logDir, .createF scriptLogPath] ++ pl.evs ++ ai.evs)

/-- Mirrors processNamespace (collector.go 1453-1498): mkdir, script log,
steps, archive, cleanup.  Only directory creation, script-log creation and
archive creation can abort; the archive walks the working directory and keeps
the full walk paths as entry names; os.RemoveAll of the working directory is
attempted only after a successful archive (the `.removeDir` event records the
attempt), and a removal failure is only warned about — the tree stays and the
run still succeeds (collector.go 1492-1495). -/
def processNamespace (env : NsEnv) (nsp logDir archiveName : String) (fs : FS) : NsOut :=
  if env.mkdirOk logDir then
    if env.createOk (pathJoin logDir "script.log") then
      let core := processNamespaceCore env nsp logDir fs
      if env.archiveOk archiveName then
        let entries := filesUnder core.1 logDir
        let fsArch : FS := ⟨core.1.dirs, core.1.files ++ [(archiveName, "")]⟩
        ⟨.ok (), if env.removeOk logDir then removeAllUnder fsArch logDir else fsArch,
         core.2 ++ [.archive archiveName entries, .removeDir logDir]⟩
      else ⟨.error "failed to create archive", core.1, core.2⟩
    else
      ⟨.error "failed to create script log",
       ⟨fs.dirs ++ [cleanDot logDir], fs.files⟩, [.mkdir logDir]⟩
  else ⟨.error "failed to create log directory", fs, []⟩

/-- The namespace list hard-wired in New (collector.go 1221). -/
def namespacesConfigured : List String := ["runai-backend", "runai"]

/-- The working-directory base name built in Run (collector.go 1391). -/
def logNameFor (cpNameClean nsp timestamp : String) : String :=
  cpNameClean ++ "-" ++ nsp ++ "-logs-" ++ timestamp

/-- The per-namespace loop of Run (collector.go 1379-1403): a missing
namespace is skipped; a processNamespace error is reported and skipped. -/
def runNamespacesLoop (env : NsEnv) (cpNameClean timestamp : String) :
    FS → List String → FS × List NsEv
  | fs, [] => (fs, [])
  | fs, nsp :: rest =>
    if env.nsExists nsp then
      let logName := logNameFor cpNameClean nsp timestamp
      let r := processNamespace env nsp ("./" ++ logName) (logName ++ ".tar.gz") fs
      let t := runNamespacesLoop env cpNameClean timestamp r.fs rest
      (t.1, .nsCheck nsp :: (r.evs ++ t.2))
    else
      let t := runNamespacesLoop env cpNameClean timestamp fs rest
      (t.1, .nsCheck nsp :: t.2)

/-- Mirrors Run (collector.go 1355-1407): process the configured namespaces in
order; always returns nil (the tool check never fails, cluster-info
extraction failures and per-namespace errors only warn). -/
def Run (env : NsEnv) (cpNameClean timestamp : String) (fs : FS) : NsOut :=
  let r := runNamespacesLoop env cpNameClean timestamp fs namespacesConfigured
  ⟨.ok (), r.1, r.2⟩

/-- A concrete environment where everything works except creating the script
log file. -/
def nsEnvScriptLogFail : NsEnv where
  nsExists := fun _ => true
  mkdirOk := fun _ => true
  createOk := fun _ => false
  writeOk := fun _ => true
  pods := fun _ => .ok []
  podContainers := fun _ _ => .ok ([], [])
  containerLog := fun _ _ _ => .ok ""
  helmReleasesInfo := .ok "# helm"
  helmReleasesInfoBackend := .ok "# helm"
  configMap := fun _ _ => .ok "kind: ConfigMap"
  podsWide := fun _ => .ok "NAME"
  nodesWide := .ok "NAME"
  fetch := fun _ _ _ => .ok "kind: RunaiConfig"
  archiveOk := fun _ => true
  removeOk := fun _ => true

/-- C5 counterexample: a run can abort although the working directory was
created successfully and archive creation would succeed — failing to create
the script log file is a third abort condition the claim does not list. -/
theorem processNamespace_scriptlog_abort :
    (processNamespace nsEnvScriptLogFail "runai" "./d" "d.tar.gz" ⟨[], []⟩).res =
        .error "failed to create script log"
    ∧ nsEnvScriptLogFail.mkdirOk "./d" = true
    ∧ nsEnvScriptLogFail.archiveOk "d.tar.gz" = true :=
  ⟨rfl, rfl, rfl⟩

theorem actionLoop_attempts (env : NsEnv) (logDir : String) :
    ∀ (acts : List (String × String × Except String String)) (fs : FS),
      ((actionLoop env logDir fs acts).2.filterMap
        (fun e => match e with | .attemptStep a => some a | _ => none)) =
      acts.map (fun a => a.1) := by
  intro acts
  induction acts with
  | nil => intro fs; rfl
  | cons a rest ih =>
    intro fs
    rcases a with ⟨aname, afile, ares⟩
    cases ares with
    | error e => simp [actionLoop, ih]
    | ok out =>
      by_cases hw : env.writeOk (pathJoin logDir afile) = true <;>
        simp [actionLoop, writeFileFS, hw, ih]

/-- C5 (amended): every individual step failure is caught as a warning and the
loop advances without retrying (collectRunaiInfo always succeeds and attempts
each of its six actions exactly once, in declared order, whatever their
outcomes); a namespace run aborts early exactly when creating the working
directory, creating the script log inside it, or creating the final archive
fails. -/
theorem processNamespace_abort_conditions (env : NsEnv) (nsp logDir archiveName : String)
    (fs : FS) :
    ((collectRunaiInfo env logDir fs).res = .ok ()
     ∧ (collectRunaiInfo env logDir fs).evs.filterMap
         (fun e => match e with | .attemptStep a => some a | _ => none) =
         ["Helm releases info", "ConfigMap runai-public", "Pod list for runai namespace",
          "Node list", "RunAI config", "Engine config"])
    ∧ ((processNamespace env nsp logDir archiveName fs).res ≠ .ok () ↔
        (env.mkdirOk logDir = false
         ∨ env.createOk (pathJoin logDir "script.log") = false
         ∨ env.archiveOk archiveName = false)) := by
  refine ⟨⟨rfl, actionLoop_attempts env logDir (runaiActions env) fs⟩, ?_⟩
  unfold processNamespace
  by_cases h1 : env.mkdirOk logDir = true
  · rw [if_pos h1]
    by_cases h2 : env.createOk (pathJoin logDir "script.log") = true
    · rw [if_pos h2]
      by_cases h3 : env.archiveOk archiveName = true
      · rw [if_pos h3]; simp [h1, h2, h3]
      · rw [if_neg h3]; simp [h1, h2, Bool.eq_false_iff.mpr h3]
    · rw [if_neg h2]; simp [h1, Bool.eq_false_iff.mpr h2]
  · rw [if_neg h1]; simp [Bool.eq_false_iff.mpr h1]

theorem processNamespace_abort_conditions_witness :
    (processNamespace nsEnvScriptLogFail "runai" "./w" "w.tar.gz" ⟨[], []⟩).res ≠ .ok () :=
  (processNamespace_abort_conditions nsEnvScriptLogFail "runai" "./w" "w.tar.gz" ⟨[], []⟩).2.mpr
    (Or.inr (Or.inl rfl))

theorem writeFileFS_evs (env : NsEnv) (fs : FS) (f c : String) :
    ∀ e ∈ (writeFileFS env fs f c).2, e = .write f := by
  unfold writeFileFS
  split <;> simp

theorem podContainerLoop_evs_write (env : NsEnv) (nsp d pod suf : String) :
    ∀ (cs : List String) (fs : FS), ∀ e ∈ (podContainerLoop env nsp d pod suf fs cs).2,
      ∃ f, e = .write f := by
  intro cs
  induction cs with
  | nil => intro fs e h; simp [podContainerLoop] at h
  | cons c rest ih =>
    intro fs e h
    unfold podContainerLoop at h
    split at h
    · exact ih fs e h
    · dsimp only at h
      rcases List.mem_append.mp h with h1 | h1
      · exact ⟨_, writeFileFS_evs env fs _ _ e h1⟩
      · exact ih _ e h1

theorem podLoop_evs_write (env : NsEnv) (nsp d : String) :
    ∀ (pods : List String) (fs : FS), ∀ e ∈ (podLoop env nsp d fs pods).2,
      ∃ f, e = .write f := by
  intro pods
  induction pods with
  | nil => intro fs e h; simp [podLoop] at h
  | cons pod rest ih =>
    intro fs e h
    unfold podLoop at h
    split at h
    · exact ih fs e h
    · dsimp only at h
      rcases List.mem_append.mp h with h1 | h1
      · rcases List.mem_append.mp h1 with h2 | h2
        · exact podContainerLoop_evs_write env nsp d _ "" _ _ e h2
        · exact podContainerLoop_evs_write env nsp d _ "_init" _ _ e h2
      · exact ih _ e h1

theorem collectPodLogs_evs (env : NsEnv) (nsp logDir : String) (fs : FS) :
    ∀ e ∈ (collectPodLogs env nsp logDir fs).evs,
      e = .mkdir (pathJoin logDir "logs") ∨ ∃ f, e = .write f := by
  intro e h
  unfold collectPodLogs at h
  split at h
  · split at h
    · simp at h; exact Or.inl h
    · dsimp only at h
      rcases List.mem_cons.mp h with h1 | h1
      · exact Or.inl h1
      · exact Or.inr (podLoop_evs_write env nsp _ _ _ e h1)
  · simp at h

theorem actionLoop_evs (env : NsEnv) (logDir : String) :
    ∀ (acts : List (String × String × Except String String)) (fs : FS),
      ∀ e ∈ (actionLoop env logDir fs acts).2,
        (∃ a, e = .attemptStep a) ∨ ∃ f, e = .write f := by
  intro acts
  induction acts with
  | nil => intro fs e h; simp [actionLoop] at h
  | cons a rest ih =>
    intro fs e h
    rcases a with ⟨aname, afile, ares⟩
    cases ares with
    | error er =>
      unfold actionLoop at h
      dsimp only at h
      rcases List.mem_cons.mp h with h1 | h1
      · exact Or.inl ⟨aname, h1⟩
      · exact ih fs e h1
    | ok out =>
      unfold actionLoop at h
      dsimp only at h
      rcases List.mem_cons.mp h with h1 | h1
      · exact Or.inl ⟨aname, h1⟩
      · rcases List.mem_append.mp h1 with h2 | h2
        · exact Or.inr ⟨_, writeFileFS_evs env fs _ _ e h2⟩
        · exact ih _ e h2

theorem collectAdditionalInfo_evs (env : NsEnv) (nsp logDir : String) (fs : FS) :
    ∀ e ∈ (collectAdditionalInfo env nsp logDir fs).evs,
      (∃ a, e = .attemptStep a) ∨ ∃ f, e = .write f := by
  intro e h
  unfold collectAdditionalInfo at h
  split at h
  · exact actionLoop_evs env logDir (runaiActions env) fs e h
  · split at h
    · exact actionLoop_evs env logDir (backendActions env) fs e h
    · simp at h

theorem processNamespaceCore_evs (env : NsEnv) (nsp logDir : String) (fs : FS) :
    ∀ e ∈ (processNamespaceCore env nsp logDir fs).2,
      e = .mkdir logDir ∨ e = .createF (pathJoin logDir "script.log")
      ∨ e = .mkdir (pathJoin logDir "logs")
      ∨ (∃ f, e = .write f) ∨ (∃ a, e = .attemptStep a) := by
  intro e h
  unfold processNamespaceCore at h
  dsimp only at h
  rcases List.mem_cons.mp h with h1 | h1
  · exact Or.inl h1
  rcases List.mem_cons.mp h1 with h2 | h2
  · exact Or.inr (Or.inl h2)
  rcases List.mem_append.mp h2 with h3 | h3
  · rcases collectPodLogs_evs env nsp logDir _ e h3 with h4 | h4
    · exact Or.inr (Or.inr (Or.inl h4))
    · exact Or.inr (Or.inr (Or.inr (Or.inl h4)))
  · rcases collectAdditionalInfo_evs env nsp logDir _ e h3 with h4 | h4
    · exact Or.inr (Or.inr (Or.inr (Or.inr h4)))
    · exact Or.inr (Or.inr (Or.inr (Or.inl h4)))

theorem processNamespace_evs (env : NsEnv) (nsp logDir an : String) (fs : FS) :
    ∀ e ∈ (processNamespace env nsp logDir an fs).evs,
      e = .mkdir logDir ∨ e = .createF (pathJoin logDir "script.log")
      ∨ e = .mkdir (pathJoin logDir "logs")
      ∨ (∃ f, e = .write f) ∨ (∃ a, e = .attemptStep a)
      ∨ (∃ es, e = .archive an es) ∨ e = .removeDir logDir := by
  intro e h
  unfold processNamespace at h
  split at h
  · split at h
    · split at h
      · dsimp only at h
        rcases List.mem_append.mp h with h1 | h1
        · rcases processNamespaceCore_evs env nsp logDir fs e h1 with h2 | h2 | h2 | h2 | h2
          · exact Or.inl h2
          · exact Or.inr (Or.inl h2)
          · exact Or.inr (Or.inr (Or.inl h2))
          · exact Or.inr (Or.inr (Or.inr (Or.inl h2)))
          · exact Or.inr (Or.inr (Or.inr (Or.inr (Or.inl h2))))
        · rcases List.mem_cons.mp h1 with h2 | h2
          · exact Or.inr (Or.inr (Or.inr (Or.inr (Or.inr (Or.inl ⟨_, h2⟩)))))
          · simp at h2
            exact Or.inr (Or.inr (Or.inr (Or.inr (Or.inr (Or.inr h2)))))
      · dsimp only at h
        rcases processNamespaceCore_evs env nsp logDir fs e h with h2 | h2 | h2 | h2 | h2
        · exact Or.inl h2
        · exact Or.inr (Or.inl h2)
        · exact Or.inr (Or.inr (Or.inl h2))
        · exact Or.inr (Or.inr (Or.inr (Or.inl h2)))
        · exact Or.inr (Or.inr (Or.inr (Or.inr (Or.inl h2))))
    · simp at h
      exact Or.inl h
  · simp at h

theorem runNamespacesLoop_evs (env : NsEnv) (cp ts : String) :
    ∀ (l : List String) (fs : FS), ∀ e ∈ (runNamespacesLoop env cp ts fs l).2,
      (∃ n ∈ l, e = .nsCheck n) ∨
      (∃ n ∈ l, env.nsExists n = true ∧
        (e = .mkdir ("./" ++ logNameFor cp n ts)
         ∨ e = .createF (pathJoin ("./" ++ logNameFor cp n ts) "script.log")
         ∨ e = .mkdir (pathJoin ("./" ++ logNameFor cp n ts) "logs")
         ∨ (∃ f, e = .write f) ∨ (∃ a, e = .attemptStep a)
         ∨ (∃ es, e = .archive (logNameFor cp n ts ++ ".tar.gz") es)
         ∨ e = .removeDir ("./" ++ logNameFor cp n ts))) := by
  intro l
  induction l with
  | nil => intro fs e h; simp [runNamespacesLoop] at h
  | cons nsp rest ih =>
    intro fs e h
    unfold runNamespacesLoop at h
    by_cases hex : env.nsExists nsp = true
    · rw [if_pos hex] at h
      dsimp only at h
      rcases List.mem_cons.mp h with h1 | h1
      · exact Or.inl ⟨nsp, by simp, h1⟩
      · rcases List.mem_append.mp h1 with h2 | h2
        · exact Or.inr ⟨nsp, by simp, hex,
            processNamespace_evs env nsp _ _ fs e h2⟩
        · rcases ih _ e h2 with ⟨n, hn, hcase⟩ | ⟨n, hn, hcase⟩
          · exact Or.inl ⟨n, by simp [hn], hcase⟩
          · exact Or.inr ⟨n, by simp [hn], hcase⟩
    · rw [if_neg hex] at h
      dsimp only at h
      rcases List.mem_cons.mp h with h1 | h1
      · exact Or.inl ⟨nsp, by simp, h1⟩
      · rcases ih _ e h1 with ⟨n, hn, hcase⟩ | ⟨n, hn, hcase⟩
        · exact Or.inl ⟨n, by simp [hn], hcase⟩
        · exact Or.inr ⟨n, by simp [hn], hcase⟩

theorem runNamespacesLoop_nsCheck (env : NsEnv) (cp ts : String) :
    ∀ (l : List String) (fs : FS) (n : String), n ∈ l →
      NsEv.nsCheck n ∈ (runNamespacesLoop env cp ts fs l).2 := by
  intro l
  induction l with
  | nil => intro fs n h; simp at h
  | cons nsp rest ih =>
    intro fs n h
    unfold runNamespacesLoop
    rcases List.mem_cons.mp h with h1 | h1
    · subst h1
      by_cases hex : env.nsExists n = true
      · rw [if_pos hex]; simp
      · rw [if_neg hex]; simp
    · by_cases hex : env.nsExists nsp = true
      · rw [if_pos hex]
        dsimp only
        exact List.mem_cons.mpr (Or.inr (List.mem_append.mpr (Or.inr (ih _ n h1))))
      · rw [if_neg hex]
        dsimp only
        exact List.mem_cons.mpr (Or.inr (ih _ n h1))

theorem logNameFor_length (cp n ts : String) :
    (logNameFor cp n ts).length = cp.length + n.length + ts.length + 7 := by
  unfold logNameFor
  simp only [String.length_append]
  rw [show ("-" : String).length = 1 from rfl, show ("-logs-" : String).length = 6 from rfl]
  omega

theorem cleanDot_dotSlash (s : String) : cleanDot ("./" ++ s) = s := by
  obtain ⟨d⟩ := s
  unfold cleanDot
  rw [show ("./" ++ String.mk d).data = '.' :: '/' :: d by rw [String.data_append]; rfl]
  rfl

theorem pathJoin_dotSlash (s f : String) : pathJoin ("./" ++ s) f = s ++ "/" ++ f := by
  unfold pathJoin
  rw [cleanDot_dotSlash]

/-- C6: a configured namespace that does not exist on the cluster is skipped by
the namespace-bundle run: no working directory is created for it, no archive is
produced for it, the run ends without a fatal error, and every configured
namespace is still visited. -/
theorem Run_skips_missing_namespace (env : NsEnv) (cp ts : String) (fs : FS) (nsp : String)
    (hmem : nsp ∈ namespacesConfigured) (hmiss : env.nsExists nsp = false) :
    (Run env cp ts fs).res = .ok ()
    ∧ NsEv.mkdir ("./" ++ logNameFor cp nsp ts) ∉ (Run env cp ts fs).evs
    ∧ (∀ entries, NsEv.archive (logNameFor cp nsp ts ++ ".tar.gz") entries ∉ (Run env cp ts fs).evs)
    ∧ (∀ n ∈ namespacesConfigured, NsEv.nsCheck n ∈ (Run env cp ts fs).evs) := by
  have hlen5 : ("runai" : String).length = 5 := rfl
  have hlen13 : ("runai-backend" : String).length = 13 := rfl
  refine ⟨rfl, ?_, ?_, ?_⟩
  · intro h
    rcases runNamespacesLoop_evs env cp ts namespacesConfigured fs _ h with
      ⟨n, hn, heq⟩ | ⟨n, hn, hex, hcase⟩
    · exact NsEv.noConfusion heq
    · have hne : n ≠ nsp := fun he => by rw [he, hmiss] at hex; exact Bool.noConfusion hex
      simp only [namespacesConfigured, List.mem_cons, List.not_mem_nil, or_false] at hmem hn
      rcases hcase with hc | hc | hc | hc | hc | hc | hc
      · injection hc with hstr
        have hl := congrArg String.length hstr
        simp only [String.length_append, logNameFor_length] at hl
        rcases hmem with hm | hm <;> rcases hn with hn1 | hn1 <;>
          (try exact hne (hn1.trans hm.symm)) <;>
          rw [hm, hn1] at hl <;> rw [hlen5, hlen13] at hl <;> omega
      · exact NsEv.noConfusion hc
      · rw [pathJoin_dotSlash] at hc
        injection hc with hstr
        have hl := congrArg String.length hstr
        simp only [String.length_append, logNameFor_length] at hl
        rw [show ("/" : String).length = 1 from rfl,
            show ("logs" : String).length = 4 from rfl,
            show ("./" : String).length = 2 from rfl] at hl
        rcases hmem with hm | hm <;> rcases hn with hn1 | hn1 <;>
          rw [hm, hn1] at hl <;> (try rw [hlen5] at hl) <;> (try rw [hlen13] at hl) <;> omega
      · obtain ⟨f, hf⟩ := hc; exact NsEv.noConfusion hf
      · obtain ⟨a, ha⟩ := hc; exact NsEv.noConfusion ha
      · obtain ⟨es, hes⟩ := hc; exact NsEv.noConfusion hes
      · exact NsEv.noConfusion hc
  · intro entries h
    rcases runNamespacesLoop_evs env cp ts namespacesConfigured fs _ h with
      ⟨n, hn, heq⟩ | ⟨n, hn, hex, hcase⟩
    · exact NsEv.noConfusion heq
    · have hne : n ≠ nsp := fun he => by rw [he, hmiss] at hex; exact Bool.noConfusion hex
      simp only [namespacesConfigured, List.mem_cons, List.not_mem_nil, or_false] at hmem hn
      rcases hcase with hc | hc | hc | hc | hc | hc | hc
      · exact NsEv.noConfusion hc
      · exact NsEv.noConfusion hc
      · exact NsEv.noConfusion hc
      · obtain ⟨f, hf⟩ := hc; exact NsEv.noConfusion hf
      · obtain ⟨a, ha⟩ := hc; exact NsEv.noConfusion ha
      · obtain ⟨es, hes⟩ := hc
        injection hes with hstr
        have hl := congrArg String.length hstr
        simp only [String.length_append, logNameFor_length] at hl
        rcases hmem with hm | hm <;> rcases hn with hn1 | hn1 <;>
          (try exact hne (hn1.trans hm.symm)) <;>
          rw [hm, hn1] at hl <;> rw [hlen5, hlen13] at hl <;> omega
      · exact NsEv.noConfusion hc
  · intro n hn
    exact runNamespacesLoop_nsCheck env cp ts namespacesConfigured fs n hn

/-- A concrete environment where the cluster lacks the runai namespace. -/
def nsEnvMissingRunai : NsEnv :=
  { nsEnvScriptLogFail with
    nsExists := fun n => n == "runai-backend",
    createOk := fun _ => true }

theorem Run_skips_missing_namespace_witness :
    NsEv.mkdir ("./" ++ logNameFor "cp" "runai" "T") ∉
      (Run nsEnvMissingRunai "cp" "T" ⟨[], []⟩).evs :=
  (Run_skips_missing_namespace nsEnvMissingRunai "cp" "T" ⟨[], []⟩ "runai"
    (by decide) rfl).2.1

/-! ### Scheduler dump (CollectSchedulerInfo / dumpSchedulerResource,
collector.go 2242-2336 and 2767-2891) -/

/-- The gvrCandidates table of dumpSchedulerResource (collector.go 2771). -/
def schedGvrCandidates (resourceType : String) : Option (List GVR) :=
  if resourceType = "projects" then some [⟨"run.ai", "v2", "projects"⟩]
  else if resourceType = "queues" then some [⟨"scheduling.run.ai", "v2", "queues"⟩]
  else if resourceType = "nodepools" then some [⟨"run.ai", "v1alpha1", "nodepools"⟩]
  else if resourceType = "departments" then some [⟨"scheduling.run.ai", "v1", "departments"⟩]
  else none

/-- Environment of a scheduler-dump run. -/
structure SchedEnv where
  connOk : Bool
  mkdirOk : Bool
  getwdOk : Bool
  chdirInOk : Bool
  chdirBackOk : Bool
  listRes : GVR → Except String (List String)
  getRes : GVR → String → Except String String
  itemCreated : String → String
  itemAge : String → String
  writeOk : String → Bool
  tarOk : Bool
  removeOk : Bool

/-- The placeholder content written when listing fails for every candidate. -/
def schedErrorOutput (resourceType errMsg : String) : String :=
  "# " ++ resourceType ++ " resources\n# Error retrieving " ++ resourceType ++ ": " ++ errMsg ++
  "\n# This may be normal if " ++ resourceType ++ " are not configured in this cluster\n"

/-- One row of the list table (name, creation time, age). -/
def schedItemLine (env : SchedEnv) (name : String) : String :=
  name ++ "\t" ++ env.itemCreated name ++ "\t" ++ env.itemAge name ++ "\n"

def schedItemLines (env : SchedEnv) : List String → String
  | [] => ""
  | n :: rest => schedItemLine env n ++ schedItemLines env rest

/-- The list-file content for a successful list. -/
def schedListContent (env : SchedEnv) (resourceType : String) (items : List String) : String :=
  "# " ++ resourceType ++ " resources (found " ++ toString items.length ++ ")\n" ++
  "# Retrieved using native Kubernetes client-go\n\n" ++
  (if resourceType = "queues" then
    "# Note: Queues are dedicated RunAI scheduling resources\n# API: scheduling.run.ai/v2\n\n"
   else "") ++
  "NAME\tCREATED\tAGE\n" ++ schedItemLines env items

/-- The manifest-extraction loop of dumpSchedulerResource: per resource name,
get with the fallback loop, then write the manifest; failures warn and
continue. -/
def extractManifests (env : SchedEnv) (tempDir singular : String) (gvrList : List GVR) :
    FS → List String → FS
  | fs, [] => fs
  | fs, rname :: rest =>
    let manifestFile := pathJoin tempDir (singular ++ "_" ++ rname ++ ".yaml")
    match (candidateLoop (fun gvr => env.getRes gvr rname) gvrList none).1 with
    | none => extractManifests env tempDir singular gvrList fs rest
    | some out =>
      if env.writeOk manifestFile then
        extractManifests env tempDir singular gvrList
          ⟨fs.dirs, fs.files ++ [(manifestFile, out)]⟩ rest
      else extractManifests env tempDir singular gvrList fs rest

/-- Mirrors dumpSchedulerResource (collector.go 2767-2891): list with the
candidate loop; when every candidate fails an explanatory comment-only
placeholder file is written instead; otherwise the summary table and each
instance manifest. -/
def dumpSchedulerResource (env : SchedEnv) (tempDir resourceType singular : String) (fs : FS) :
    Except String Unit × FS :=
  match schedGvrCandidates resourceType with
  | none => (.error ("unknown scheduler resource type: " ++ resourceType), fs)
  | some gvrList =>
    let listFile := pathJoin tempDir (resourceType ++ "_list.txt")
    match candidateLoop env.listRes gvrList none with
    | (none, lastErr, _) =>
      let msg := match lastErr with | some e => e | none => "<nil>"
      if env.writeOk listFile then
        (.ok (), ⟨fs.dirs, fs.files ++ [(listFile, schedErrorOutput resourceType msg)]⟩)
      else (.error ("failed to write " ++ resourceType ++ " error file"), fs)
    | (some items, _, _) =>
      if env.writeOk listFile then
        (.ok (), extractManifests env tempDir singular gvrList
          ⟨fs.dirs, fs.files ++ [(listFile, schedListContent env resourceType items)]⟩ items)
      else (.error ("failed to write " ++ resourceType ++ " list"), fs)

/-- Mirrors validateFileContent (collector.go 2894-2917), reading from the
modelled filesystem: an error value means the file is flagged. -/
def validateFileContent (fs : FS) (filename : String) : Except String Unit :=
  match fs.files.find? (fun pc => pc.1 == filename) with
  | none => .error ("cannot read file " ++ filename)
  | some pc =>
    if emptyContentFlag pc.2 then
      .error ("file " ++ filename ++ " contains no meaningful content (only comments or empty)")
    else .ok ()

/-- The four scheduler resource kinds (collector.go 2282-2290). -/
def schedResources : List (String × String) :=
  [("projects", "project"), ("queues", "queue"), ("nodepools", "nodepool"),
   ("departments", "department")]

/-- The dump loop of CollectSchedulerInfo: a dump failure is a warning; after
each successful dump the list file is validated, and that flag is a warning as
well.  Returns the filesystem and the warnings raised. -/
def schedDumpLoop (env : SchedEnv) (tempDir : String) :
    FS → List (String × String) → FS × List String
  | fs, [] => (fs, [])
  | fs, (rt, sing) :: rest =>
    match dumpSchedulerResource env tempDir rt sing fs with
    | (.error e, fs1) =>
      let t := schedDumpLoop env tempDir fs1 rest
      (t.1, ("Failed to dump " ++ rt ++ ": " ++ e) :: t.2)
    | (.ok _, fs1) =>
      match validateFileContent fs1 (pathJoin tempDir (rt ++ "_list.txt")) with
      | .error w =>
        let t := schedDumpLoop env tempDir fs1 rest
        (t.1, w :: t.2)
      | .ok _ => schedDumpLoop env tempDir fs1 rest

/-- Outcome of CollectSchedulerInfo: result, filesystem, warnings raised. -/
structure SchedOut where
  res : Except String Unit
  fs : FS
  warnings : List String

/-- Mirrors CollectSchedulerInfo (collector.go 2242-2336): connectivity check,
temp directory, chdir in, the four dumps (warnings only), chdir back, tar,
then os.RemoveAll of the temp directory — whose failure is only warned about,
leaving the directory in place while the run still succeeds (collector.go
2318-2321). -/
def CollectSchedulerInfo (env : SchedEnv) (timestamp : String) (fs : FS) : SchedOut :=
  if env.connOk then
    if env.mkdirOk then
      if env.getwdOk then
        if env.chdirInOk then
          let tempDir := "scheduler_info_dump_" ++ timestamp
          let d := schedDumpLoop env tempDir ⟨fs.dirs ++ [tempDir], fs.files⟩ schedResources
          if env.chdirBackOk then
            if env.tarOk then
              ⟨.ok (),
               (if env.removeOk then
                  removeAllUnder ⟨d.1.dirs, d.1.files ++ [(tempDir ++ ".tar.gz", "")]⟩ tempDir
                else ⟨d.1.dirs, d.1.files ++ [(tempDir ++ ".tar.gz", "")]⟩),
               d.2⟩
            else ⟨.error "failed to create archive", d.1, d.2⟩
          else ⟨.error "failed to change back to original directory", d.1, d.2⟩
        else
          ⟨.error "failed to change to temp directory",
           ⟨fs.dirs ++ ["scheduler_info_dump_" ++ timestamp], fs.files⟩, []⟩
      else
        ⟨.error "failed to get current directory",
         ⟨fs.dirs ++ ["scheduler_info_dump_" ++ timestamp], fs.files⟩, []⟩
    else ⟨.error "failed to create temp directory", fs, []⟩
  else ⟨.error "cannot connect to Kubernetes cluster", fs, []⟩

theorem filesUnder_removeAllUnder (fs : FS) (d : String) :
    filesUnder (removeAllUnder fs d) d = [] := by
  unfold filesUnder removeAllUnder
  dsimp only
  rw [List.filter_filter]
  have h : ∀ pc ∈ fs.files,
      ¬(leadsWith (cleanDot d ++ "/") pc.1 && !(leadsWith (cleanDot d ++ "/") pc.1)) = true := by
    intro pc _
    cases hl : leadsWith (cleanDot d ++ "/") pc.1 <;> simp [hl]
  rw [List.filter_eq_nil_iff.mpr h]
  rfl

theorem cleanDot_not_mem_removeAllUnder_dirs (fs : FS) (d : String) :
    cleanDot d ∉ (removeAllUnder fs d).dirs := by
  unfold removeAllUnder
  intro h
  have h2 := (List.mem_filter.mp h).2
  simp at h2

theorem writeFileFS_dirs (env : NsEnv) (fs : FS) (f c : String) :
    (writeFileFS env fs f c).1.dirs = fs.dirs := by
  unfold writeFileFS
  split <;> rfl

theorem podContainerLoop_dirs (env : NsEnv) (nsp d pod suf : String) :
    ∀ (cs : List String) (fs : FS), (podContainerLoop env nsp d pod suf fs cs).1.dirs = fs.dirs := by
  intro cs
  induction cs with
  | nil => intro fs; rfl
  | cons c rest ih =>
    intro fs
    unfold podContainerLoop
    split
    · exact ih fs
    · dsimp only
      rw [ih, writeFileFS_dirs]

theorem podLoop_dirs (env : NsEnv) (nsp d : String) :
    ∀ (pods : List String) (fs : FS), (podLoop env nsp d fs pods).1.dirs = fs.dirs := by
  intro pods
  induction pods with
  | nil => intro fs; rfl
  | cons pod rest ih =>
    intro fs
    unfold podLoop
    split
    · exact ih fs
    · dsimp only
      rw [ih, podContainerLoop_dirs, podContainerLoop_dirs]

theorem actionLoop_dirs (env : NsEnv) (logDir : String) :
    ∀ (acts : List (String × String × Except String String)) (fs : FS),
      (actionLoop env logDir fs acts).1.dirs = fs.dirs := by
  intro acts
  induction acts with
  | nil => intro fs; rfl
  | cons a rest ih =>
    intro fs
    rcases a with ⟨aname, afile, ares⟩
    cases ares with
    | error e => exact ih fs
    | ok out =>
      unfold actionLoop
      dsimp only
      rw [ih, writeFileFS_dirs]

theorem collectAdditionalInfo_dirs (env : NsEnv) (nsp logDir : String) (fs : FS) :
    (collectAdditionalInfo env nsp logDir fs).fs.dirs = fs.dirs := by
  unfold collectAdditionalInfo collectRunaiInfo collectBackendInfo
  split
  · exact actionLoop_dirs env logDir (runaiActions env) fs
  · split
    · exact actionLoop_dirs env logDir (backendActions env) fs
    · rfl

theorem collectPodLogs_dirs_mem (env : NsEnv) (nsp logDir : String) (fs : FS) (x : String)
    (hx : x ∈ fs.dirs) : x ∈ (collectPodLogs env nsp logDir fs).fs.dirs := by
  unfold collectPodLogs
  split
  · split
    · simpa using Or.inl hx
    · dsimp only
      rw [podLoop_dirs]
      simpa using Or.inl hx
  · exact hx

theorem processNamespaceCore_dirs_mem (env : NsEnv) (nsp logDir : String) (fs : FS) :
    cleanDot logDir ∈ (processNamespaceCore env nsp logDir fs).1.dirs := by
  unfold processNamespaceCore
  dsimp only
  rw [collectAdditionalInfo_dirs]
  exact collectPodLogs_dirs_mem env nsp logDir _ _ (by simp)

theorem extractManifests_dirs (env : SchedEnv) (tempDir singular : String) (gvrList : List GVR) :
    ∀ (names : List String) (fs : FS),
      (extractManifests env tempDir singular gvrList fs names).dirs = fs.dirs := by
  intro names
  induction names with
  | nil => intro fs; rfl
  | cons n rest ih =>
    intro fs
    unfold extractManifests
    split
    · exact ih fs
    · dsimp only
      split
      · exact ih _
      · exact ih fs

theorem dumpSchedulerResource_dirs (env : SchedEnv) (tempDir rt sing : String) (fs : FS) :
    (dumpSchedulerResource env tempDir rt sing fs).2.dirs = fs.dirs := by
  unfold dumpSchedulerResource
  split
  · rfl
  · split
    · dsimp only
      split <;> rfl
    · dsimp only
      split
      · exact extractManifests_dirs env tempDir sing _ _ _
      · rfl

theorem schedDumpLoop_dirs (env : SchedEnv) (tempDir : String) :
    ∀ (rs : List (String × String)) (fs : FS),
      (schedDumpLoop env tempDir fs rs).1.dirs = fs.dirs := by
  intro rs
  induction rs with
  | nil => intro fs; rfl
  | cons r rest ih =>
    intro fs
    rcases r with ⟨rt, sing⟩
    unfold schedDumpLoop
    have hd := dumpSchedulerResource_dirs env tempDir rt sing fs
    split
    · rename_i fs1 heq
      rw [ih]
      rw [show fs1 = (dumpSchedulerResource env tempDir rt sing fs).2 by rw [heq]]
      exact hd
    · rename_i fs1 heq
      split
      · rw [ih]
        rw [show fs1 = (dumpSchedulerResource env tempDir rt sing fs).2 by rw [heq]]
        exact hd
      · rw [ih]
        rw [show fs1 = (dumpSchedulerResource env tempDir rt sing fs).2 by rw [heq]]
        exact hd

theorem removeDir_not_mem_core (env : NsEnv) (nsp logDir : String) (fs : FS) :
    NsEv.removeDir logDir ∉ (processNamespaceCore env nsp logDir fs).2 := by
  intro h
  rcases processNamespaceCore_evs env nsp logDir fs _ h with h1 | h1 | h1 | h1 | h1
  · exact NsEv.noConfusion h1
  · exact NsEv.noConfusion h1
  · exact NsEv.noConfusion h1
  · obtain ⟨f, hf⟩ := h1; exact NsEv.noConfusion hf
  · obtain ⟨a, ha⟩ := h1; exact NsEv.noConfusion ha

/-- A concrete environment where everything works except os.RemoveAll of the
working directory. -/
def nsEnvRemoveFail : NsEnv :=
  { nsEnvMissingRunai with removeOk := fun _ => false }

/-- C7 counterexample: the archive seals successfully, the run reports
success, and yet the working directory and the script log inside it are still
present — os.RemoveAll failed and Go only warns (collector.go 1492-1495), so
"deleted if sealed" does not hold of the program. -/
theorem removeAll_failure_keeps_tree :
    (processNamespace nsEnvRemoveFail "x" "./d" "d.tar.gz" ⟨[], []⟩).res = .ok ()
    ∧ nsEnvRemoveFail.archiveOk "d.tar.gz" = true
    ∧ ("d/script.log", "") ∈ (processNamespace nsEnvRemoveFail "x" "./d" "d.tar.gz" ⟨[], []⟩).fs.files
    ∧ "d" ∈ (processNamespace nsEnvRemoveFail "x" "./d" "d.tar.gz" ⟨[], []⟩).fs.dirs :=
  ⟨rfl, rfl, by decide, by decide⟩

/-- C7 (amended): removal of the working directory and its files is attempted
exactly when the archive is sealed successfully, and when the removal itself
succeeds they are deleted; a removal failure is only warned about, leaving the
tree behind while the run still succeeds.  If archive creation fails, the run
returns an error and the working tree is left in place unchanged.  Stated for
the namespace bundle (processNamespace) and the scheduler bundle
(CollectSchedulerInfo). -/
theorem workingDir_cleanup_spec (env : NsEnv) (senv : SchedEnv)
    (nsp logDir archiveName ts : String) (fs sfs : FS)
    (h1 : env.mkdirOk logDir = true)
    (h2 : env.createOk (pathJoin logDir "script.log") = true)
    (hs1 : senv.connOk = true) (hs2 : senv.mkdirOk = true) (hs3 : senv.getwdOk = true)
    (hs4 : senv.chdirInOk = true) (hs5 : senv.chdirBackOk = true) :
    ((env.archiveOk archiveName = true →
        (processNamespace env nsp logDir archiveName fs).res = .ok ()
        ∧ NsEv.removeDir logDir ∈ (processNamespace env nsp logDir archiveName fs).evs
        ∧ (env.removeOk logDir = true →
            filesUnder (processNamespace env nsp logDir archiveName fs).fs logDir = []
            ∧ cleanDot logDir ∉ (processNamespace env nsp logDir archiveName fs).fs.dirs)
        ∧ (env.removeOk logDir = false →
            (processNamespace env nsp logDir archiveName fs).fs =
              ⟨(processNamespaceCore env nsp logDir fs).1.dirs,
               (processNamespaceCore env nsp logDir fs).1.files ++ [(archiveName, "")]⟩
            ∧ cleanDot logDir ∈ (processNamespace env nsp logDir archiveName fs).fs.dirs))
     ∧ (env.archiveOk archiveName = false →
        (processNamespace env nsp logDir archiveName fs).res = .error "failed to create archive"
        ∧ (processNamespace env nsp logDir archiveName fs).fs =
            (processNamespaceCore env nsp logDir fs).1
        ∧ NsEv.removeDir logDir ∉ (processNamespace env nsp logDir archiveName fs).evs))
    ∧ ((senv.tarOk = true →
        (CollectSchedulerInfo senv ts sfs).res = .ok ()
        ∧ (senv.removeOk = true →
            filesUnder (CollectSchedulerInfo senv ts sfs).fs ("scheduler_info_dump_" ++ ts) = []
            ∧ cleanDot ("scheduler_info_dump_" ++ ts) ∉ (CollectSchedulerInfo senv ts sfs).fs.dirs)
        ∧ (senv.removeOk = false →
            ("scheduler_info_dump_" ++ ts) ∈ (CollectSchedulerInfo senv ts sfs).fs.dirs))
     ∧ (senv.tarOk = false →
        (CollectSchedulerInfo senv ts sfs).res = .error "failed to create archive"
        ∧ (CollectSchedulerInfo senv ts sfs).fs =
            (schedDumpLoop senv ("scheduler_info_dump_" ++ ts)
              ⟨sfs.dirs ++ ["scheduler_info_dump_" ++ ts], sfs.files⟩ schedResources).1
        ∧ ("scheduler_info_dump_" ++ ts) ∈ (CollectSchedulerInfo senv ts sfs).fs.dirs)) := by
  constructor
  · constructor
    · intro ha
      unfold processNamespace
      rw [if_pos h1, if_pos h2]
      dsimp only
      rw [if_pos ha]
      refine ⟨rfl, by simp, fun hr => ?_, fun hr => ?_⟩
      · rw [show (⟨.ok (), if env.removeOk logDir = true then
              removeAllUnder ⟨(processNamespaceCore env nsp logDir fs).1.dirs,
                (processNamespaceCore env nsp logDir fs).1.files ++ [(archiveName, "")]⟩ logDir
            else ⟨(processNamespaceCore env nsp logDir fs).1.dirs,
                (processNamespaceCore env nsp logDir fs).1.files ++ [(archiveName, "")]⟩,
            (processNamespaceCore env nsp logDir fs).2 ++
              [.archive archiveName (filesUnder (processNamespaceCore env nsp logDir fs).1 logDir),
               .removeDir logDir]⟩ : NsOut).fs =
            removeAllUnder ⟨(processNamespaceCore env nsp logDir fs).1.dirs,
              (processNamespaceCore env nsp logDir fs).1.files ++ [(archiveName, "")]⟩ logDir
          by dsimp only; rw [if_pos hr]]
        exact ⟨filesUnder_removeAllUnder _ logDir, cleanDot_not_mem_removeAllUnder_dirs _ logDir⟩
      · rw [show (⟨.ok (), if env.removeOk logDir = true then
              removeAllUnder ⟨(processNamespaceCore env nsp logDir fs).1.dirs,
                (processNamespaceCore env nsp logDir fs).1.files ++ [(archiveName, "")]⟩ logDir
            else ⟨(processNamespaceCore env nsp logDir fs).1.dirs,
                (processNamespaceCore env nsp logDir fs).1.files ++ [(archiveName, "")]⟩,
            (processNamespaceCore env nsp logDir fs).2 ++
              [.archive archiveName (filesUnder (processNamespaceCore env nsp logDir fs).1 logDir),
               .removeDir logDir]⟩ : NsOut).fs =
            ⟨(processNamespaceCore env nsp logDir fs).1.dirs,
             (processNamespaceCore env nsp logDir fs).1.files ++ [(archiveName, "")]⟩
          by dsimp only; rw [if_neg (by simp [hr])]]
        exact ⟨rfl, processNamespaceCore_dirs_mem env nsp logDir fs⟩
    · intro ha
      unfold processNamespace
      rw [if_pos h1, if_pos h2]
      dsimp only
      rw [if_neg (by simp [ha])]
      exact ⟨rfl, rfl, removeDir_not_mem_core env nsp logDir fs⟩
  · constructor
    · intro ht
      unfold CollectSchedulerInfo
      rw [if_pos hs1, if_pos hs2, if_pos hs3, if_pos hs4]
      dsimp only
      rw [if_pos hs5, if_pos ht]
      refine ⟨rfl, fun hr => ?_, fun hr => ?_⟩
      · rw [show (⟨.ok (), if senv.removeOk = true then
              removeAllUnder ⟨(schedDumpLoop senv ("scheduler_info_dump_" ++ ts)
                  ⟨sfs.dirs ++ ["scheduler_info_dump_" ++ ts], sfs.files⟩ schedResources).1.dirs,
                (schedDumpLoop senv ("scheduler_info_dump_" ++ ts)
                  ⟨sfs.dirs ++ ["scheduler_info_dump_" ++ ts], sfs.files⟩ schedResources).1.files ++
                  [("scheduler_info_dump_" ++ ts ++ ".tar.gz", "")]⟩ ("scheduler_info_dump_" ++ ts)
            else ⟨(schedDumpLoop senv ("scheduler_info_dump_" ++ ts)
                  ⟨sfs.dirs ++ ["scheduler_info_dump_" ++ ts], sfs.files⟩ schedResources).1.dirs,
                (schedDumpLoop senv ("scheduler_info_dump_" ++ ts)
                  ⟨sfs.dirs ++ ["scheduler_info_dump_" ++ ts], sfs.files⟩ schedResources).1.files ++
                  [("scheduler_info_dump_" ++ ts ++ ".tar.gz", "")]⟩,
            (schedDumpLoop senv ("scheduler_info_dump_" ++ ts)
              ⟨sfs.dirs ++ ["scheduler_info_dump_" ++ ts], sfs.files⟩ schedResources).2⟩ :
            SchedOut).fs =
            removeAllUnder ⟨(schedDumpLoop senv ("scheduler_info_dump_" ++ ts)
                ⟨sfs.dirs ++ ["scheduler_info_dump_" ++ ts], sfs.files⟩ schedResources).1.dirs,
              (schedDumpLoop senv ("scheduler_info_dump_" ++ ts)
                ⟨sfs.dirs ++ ["scheduler_info_dump_" ++ ts], sfs.files⟩ schedResources).1.files ++
                [("scheduler_info_dump_" ++ ts ++ ".tar.gz", "")]⟩ ("scheduler_info_dump_" ++ ts)
          by dsimp only; rw [if_pos hr]]
        exact ⟨filesUnder_removeAllUnder _ _, cleanDot_not_mem_removeAllUnder_dirs _ _⟩
      · rw [show (⟨.ok (), if senv.removeOk = true then
              removeAllUnder ⟨(schedDumpLoop senv ("scheduler_info_dump_" ++ ts)
                  ⟨sfs.dirs ++ ["scheduler_info_dump_" ++ ts], sfs.files⟩ schedResources).1.dirs,
                (schedDumpLoop senv ("scheduler_info_dump_" ++ ts)
                  ⟨sfs.dirs ++ ["scheduler_info_dump_" ++ ts], sfs.files⟩ schedResources).1.files ++
                  [("scheduler_info_dump_" ++ ts ++ ".tar.gz", "")]⟩ ("scheduler_info_dump_" ++ ts)
            else ⟨(schedDumpLoop senv ("scheduler_info_dump_" ++ ts)
                  ⟨sfs.dirs ++ ["scheduler_info_dump_" ++ ts], sfs.files⟩ schedResources).1.dirs,
                (schedDumpLoop senv ("scheduler_info_dump_" ++ ts)
                  ⟨sfs.dirs ++ ["scheduler_info_dump_" ++ ts], sfs.files⟩ schedResources).1.files ++
                  [("scheduler_info_dump_" ++ ts ++ ".tar.gz", "")]⟩,
            (schedDumpLoop senv ("scheduler_info_dump_" ++ ts)
              ⟨sfs.dirs ++ ["scheduler_info_dump_" ++ ts], sfs.files⟩ schedResources).2⟩ :
            SchedOut).fs =
            ⟨(schedDumpLoop senv ("scheduler_info_dump_" ++ ts)
                ⟨sfs.dirs ++ ["scheduler_info_dump_" ++ ts], sfs.files⟩ schedResources).1.dirs,
              (schedDumpLoop senv ("scheduler_info_dump_" ++ ts)
                ⟨sfs.dirs ++ ["scheduler_info_dump_" ++ ts], sfs.files⟩ schedResources).1.files ++
                [("scheduler_info_dump_" ++ ts ++ ".tar.gz", "")]⟩
          by dsimp only; rw [if_neg (by simp [hr])]]
        rw [show (⟨(schedDumpLoop senv ("scheduler_info_dump_" ++ ts)
                ⟨sfs.dirs ++ ["scheduler_info_dump_" ++ ts], sfs.files⟩ schedResources).1.dirs,
              (schedDumpLoop senv ("scheduler_info_dump_" ++ ts)
                ⟨sfs.dirs ++ ["scheduler_info_dump_" ++ ts], sfs.files⟩ schedResources).1.files ++
                [("scheduler_info_dump_" ++ ts ++ ".tar.gz", "")]⟩ : FS).dirs =
            (schedDumpLoop senv ("scheduler_info_dump_" ++ ts)
              ⟨sfs.dirs ++ ["scheduler_info_dump_" ++ ts], sfs.files⟩ schedResources).1.dirs
          from rfl]
        rw [schedDumpLoop_dirs]
        simp
    · intro ht
      unfold CollectSchedulerInfo
      rw [if_pos hs1, if_pos hs2, if_pos hs3, if_pos hs4]
      dsimp only
      rw [if_pos hs5, if_neg (by simp [ht])]
      refine ⟨rfl, rfl, ?_⟩
      rw [show (⟨.error "failed to create archive",
            (schedDumpLoop senv ("scheduler_info_dump_" ++ ts)
              ⟨sfs.dirs ++ ["scheduler_info_dump_" ++ ts], sfs.files⟩ schedResources).1,
            (schedDumpLoop senv ("scheduler_info_dump_" ++ ts)
              ⟨sfs.dirs ++ ["scheduler_info_dump_" ++ ts], sfs.files⟩ schedResources).2⟩ :
          SchedOut).fs =
          (schedDumpLoop senv ("scheduler_info_dump_" ++ ts)
            ⟨sfs.dirs ++ ["scheduler_info_dump_" ++ ts], sfs.files⟩ schedResources).1 from rfl]
      rw [schedDumpLoop_dirs]
      simp

/-- A concrete environment where everything up to archiving works but tar
fails. -/
def sEnvTarFail : SchedEnv where
  connOk := true
  mkdirOk := true
  getwdOk := true
  chdirInOk := true
  chdirBackOk := true
  listRes := fun _ => .error "the server could not find the requested resource"
  getRes := fun _ _ => .error "not found"
  itemCreated := fun _ => "2024-01-01 00:00:00"
  itemAge := fun _ => "1h0m0s"
  writeOk := fun _ => true
  tarOk := false
  removeOk := true

theorem workingDir_cleanup_spec_witness :
    (processNamespace nsEnvMissingRunai "runai" "./w" "w.tar.gz" ⟨[], []⟩).res = .ok ()
    ∧ filesUnder (processNamespace nsEnvMissingRunai "runai" "./w" "w.tar.gz" ⟨[], []⟩).fs "./w" = []
    ∧ (CollectSchedulerInfo sEnvTarFail "T" ⟨[], []⟩).res = .error "failed to create archive" :=
  ⟨((workingDir_cleanup_spec nsEnvMissingRunai sEnvTarFail "runai" "./w" "w.tar.gz" "T"
      ⟨[], []⟩ ⟨[], []⟩ rfl rfl rfl rfl rfl rfl rfl).1.1 rfl).1,
   (((workingDir_cleanup_spec nsEnvMissingRunai sEnvTarFail "runai" "./w" "w.tar.gz" "T"
      ⟨[], []⟩ ⟨[], []⟩ rfl rfl rfl rfl rfl rfl rfl).1.1 rfl).2.2.1 rfl).1,
   ((workingDir_cleanup_spec nsEnvMissingRunai sEnvTarFail "runai" "./w" "w.tar.gz" "T"
      ⟨[], []⟩ ⟨[], []⟩ rfl rfl rfl rfl rfl rfl rfl).2.2 rfl).1⟩

/-- Spec-side description of CollectSchedulerInfo's outcome: a function of the
fatal operations alone. -/
def schedResultSpec (env : SchedEnv) : Except String Unit :=
  if env.connOk then
    if env.mkdirOk then
      if env.getwdOk then
        if env.chdirInOk then
          if env.chdirBackOk then
            if env.tarOk then .ok () else .error "failed to create archive"
          else .error "failed to change back to original directory"
        else .error "failed to change to temp directory"
      else .error "failed to get current directory"
    else .error "failed to create temp directory"
  else .error "cannot connect to Kubernetes cluster"

theorem CollectSchedulerInfo_res (env : SchedEnv) (ts : String) (fs : FS) :
    (CollectSchedulerInfo env ts fs).res = schedResultSpec env := by
  unfold CollectSchedulerInfo schedResultSpec
  split
  · split
    · split
      · split
        · dsimp only
          split
          · split <;> rfl
          · rfl
        · rfl
      · rfl
    · rfl
  · rfl

/-- C8: the content validator flags a file exactly when every non-blank line
of the file, after trimming, begins with the comment character '#' (a
completely empty file included); and the flag is only ever surfaced as a
warning — the scheduler run's outcome is a function of the fatal operations
alone, independent of any file content. -/
theorem validateFileContent_spec :
    (∀ content : String, emptyContentFlag content = true ↔
        ∀ line ∈ splitLinesChars content.data,
          trimChars line = [] ∨ (trimChars line).headD ' ' = '#')
    ∧ (∀ (fs : FS) (p content : String),
        fs.files.find? (fun pc => pc.1 == p) = some (p, content) →
        (validateFileContent fs p =
            .error ("file " ++ p ++ " contains no meaningful content (only comments or empty)")
          ↔ emptyContentFlag content = true))
    ∧ (∀ (env : SchedEnv) (ts : String) (fs : FS),
        (CollectSchedulerInfo env ts fs).res = schedResultSpec env) := by
  refine ⟨emptyContentFlag_iff, ?_, fun env ts fs => CollectSchedulerInfo_res env ts fs⟩
  intro fs p content hfind
  unfold validateFileContent
  rw [hfind]
  by_cases hflag : emptyContentFlag content = true
  · simp [hflag]
  · simp [hflag]

theorem validateFileContent_spec_witness :
    emptyContentFlag "# only comments\n\n# here" = true :=
  (validateFileContent_spec.1 "# only comments\n\n# here").mpr (by decide)

/-! ### Archive contents (createArchive / createWorkloadArchive) -/

/-- C2 counterexample: in the namespace bundle, every archive entry keeps its
full walk path, which includes the working-directory name — the entry for the
script log of working root "./d" is "d/script.log", not the root-relative
"script.log". -/
theorem createArchive_paths_counterexample :
    (processNamespace nsEnvMissingRunai "x" "./d" "d.tar.gz" ⟨[], []⟩).evs =
      [.mkdir "./d", .createF "d/script.log", .mkdir "d/logs",
       .archive "d.tar.gz" ["d/script.log"], .removeDir "./d"]
    ∧ "d/script.log" ≠ "script.log" :=
  ⟨rfl, by decide⟩

/-- Spec: the per-container pod-log files whose fetch and write both
succeeded. -/
def podContainerFilesSpec (env : NsEnv) (nsp d pod suf : String) : List String → List String
  | [] => []
  | ctr :: rest =>
    (match env.containerLog nsp pod ctr with
     | .ok _ =>
        if env.writeOk (pathJoin d (pod ++ "_" ++ ctr ++ suf ++ ".log")) then
          [pathJoin d (pod ++ "_" ++ ctr ++ suf ++ ".log")]
        else []
     | .error _ => []) ++ podContainerFilesSpec env nsp d pod suf rest

/-- Spec: the per-pod log files collected. -/
def podFilesSpec (env : NsEnv) (nsp d : String) : List String → List String
  | [] => []
  | pod :: rest =>
    (match env.podContainers nsp pod with
     | .error _ => []
     | .ok (regs, inits) =>
       podContainerFilesSpec env nsp d pod "" regs ++
       podContainerFilesSpec env nsp d pod "_init" inits) ++ podFilesSpec env nsp d rest

/-- Spec: the files collectPodLogs leaves behind. -/
def collectPodLogsFilesSpec (env : NsEnv) (nsp logDir : String) : List String :=
  if env.mkdirOk (pathJoin logDir "logs") then
    match env.pods nsp with
    | .error _ => []
    | .ok pods => podFilesSpec env nsp (pathJoin logDir "logs") pods
  else []

/-- Spec: the files the action loop leaves behind (successful actions whose
write succeeded). -/
def actionFilesSpec (env : NsEnv) (logDir : String) :
    List (String × String × Except String String) → List String
  | [] => []
  | (_, afile, ares) :: rest =>
    (match ares with
     | .ok _ => if env.writeOk (pathJoin logDir afile) then [pathJoin logDir afile] else []
     | .error _ => []) ++ actionFilesSpec env logDir rest

/-- Spec: the namespace-specific auxiliary files collected. -/
def additionalFilesSpec (env : NsEnv) (nsp logDir : String) : List String :=
  if nsp = "runai" then actionFilesSpec env logDir (runaiActions env)
  else if nsp = "runai-backend" then actionFilesSpec env logDir (backendActions env)
  else []

/-- Spec: the working tree after the collection steps — the script log and
exactly the files whose collection step succeeded. -/
def stepFilesSpec (env : NsEnv) (nsp logDir : String) : List String :=
  pathJoin logDir "script.log" ::
    (collectPodLogsFilesSpec env nsp logDir ++ additionalFilesSpec env nsp logDir)

theorem writeFileFS_files (env : NsEnv) (fs : FS) (f c : String) :
    (writeFileFS env fs f c).1.files.map Prod.fst =
      fs.files.map Prod.fst ++ (if env.writeOk f then [f] else []) := by
  unfold writeFileFS
  split <;> simp

theorem podContainerLoop_files (env : NsEnv) (nsp d pod suf : String) :
    ∀ (cs : List String) (fs : FS),
      (podContainerLoop env nsp d pod suf fs cs).1.files.map Prod.fst =
        fs.files.map Prod.fst ++ podContainerFilesSpec env nsp d pod suf cs := by
  intro cs
  induction cs with
  | nil => intro fs; simp [podContainerLoop, podContainerFilesSpec]
  | cons c rest ih =>
    intro fs
    unfold podContainerLoop podContainerFilesSpec
    cases hcl : env.containerLog nsp pod c with
    | error e =>
      rw [ih]
      simp
    | ok out =>
      dsimp only
      rw [ih, writeFileFS_files]
      split <;> simp

theorem podLoop_files (env : NsEnv) (nsp d : String) :
    ∀ (pods : List String) (fs : FS),
      (podLoop env nsp d fs pods).1.files.map Prod.fst =
        fs.files.map Prod.fst ++ podFilesSpec env nsp d pods := by
  intro pods
  induction pods with
  | nil => intro fs; simp [podLoop, podFilesSpec]
  | cons pod rest ih =>
    intro fs
    unfold podLoop podFilesSpec
    split
    · rw [ih]
      simp
    · dsimp only
      rw [ih, podContainerLoop_files, podContainerLoop_files]
      simp

theorem collectPodLogs_files (env : NsEnv) (nsp logDir : String) (fs : FS) :
    (collectPodLogs env nsp logDir fs).fs.files.map Prod.fst =
      fs.files.map Prod.fst ++ collectPodLogsFilesSpec env nsp logDir := by
  unfold collectPodLogs collectPodLogsFilesSpec
  split
  · split
    · simp
    · dsimp only
      rw [podLoop_files]
  · simp

theorem actionLoop_files (env : NsEnv) (logDir : String) :
    ∀ (acts : List (String × String × Except String String)) (fs : FS),
      (actionLoop env logDir fs acts).1.files.map Prod.fst =
        fs.files.map Prod.fst ++ actionFilesSpec env logDir acts := by
  intro acts
  induction acts with
  | nil => intro fs; simp [actionLoop, actionFilesSpec]
  | cons a rest ih =>
    intro fs
    rcases a with ⟨aname, afile, ares⟩
    cases ares with
    | error e => simp [actionLoop, actionFilesSpec, ih]
    | ok out =>
      unfold actionLoop actionFilesSpec
      dsimp only
      rw [ih, writeFileFS_files]
      split <;> simp

theorem collectAdditionalInfo_files (env : NsEnv) (nsp logDir : String) (fs : FS) :
    (collectAdditionalInfo env nsp logDir fs).fs.files.map Prod.fst =
      fs.files.map Prod.fst ++ additionalFilesSpec env nsp logDir := by
  unfold collectAdditionalInfo additionalFilesSpec collectRunaiInfo collectBackendInfo
  split
  · exact actionLoop_files env logDir (runaiActions env) fs
  · split
    · exact actionLoop_files env logDir (backendActions env) fs
    · simp

theorem processNamespaceCore_files (env : NsEnv) (nsp logDir : String) (fs : FS) :
    (processNamespaceCore env nsp logDir fs).1.files.map Prod.fst =
      fs.files.map Prod.fst ++ stepFilesSpec env nsp logDir := by
  unfold processNamespaceCore stepFilesSpec
  dsimp only
  rw [collectAdditionalInfo_files, collectPodLogs_files]
  simp

theorem map_fst_filter_fst (p : String → Bool) (l : List (String × String)) :
    (l.filter (fun pc => p pc.1)).map Prod.fst = (l.map Prod.fst).filter p := by
  induction l with
  | nil => rfl
  | cons a rest ih =>
    by_cases h : p a.1 = true <;> simp [List.filter_cons, h, ih]

theorem filesUnder_eq_filter (fs : FS) (d : String) :
    filesUnder fs d = (fs.files.map Prod.fst).filter (fun q => leadsWith (cleanDot d ++ "/") q) := by
  unfold filesUnder
  exact map_fst_filter_fst _ fs.files

theorem leadsWith_pathJoin (d f : String) :
    leadsWith (cleanDot d ++ "/") (pathJoin d f) = true :=
  leadsWith_append (cleanDot d ++ "/") f

theorem leadsWith_pathJoin_logs (logDir f : String)
    (hlogs : cleanDot (pathJoin logDir "logs") = pathJoin logDir "logs") :
    leadsWith (cleanDot logDir ++ "/") (pathJoin (pathJoin logDir "logs") f) = true := by
  unfold pathJoin
  unfold pathJoin at hlogs
  rw [hlogs]
  rw [String.append_assoc (cleanDot logDir ++ "/") "logs" "/",
      String.append_assoc (cleanDot logDir ++ "/") ("logs" ++ "/") f]
  exact leadsWith_append (cleanDot logDir ++ "/") ("logs" ++ "/" ++ f)

theorem podContainerFilesSpec_shape (env : NsEnv) (nsp d pod suf : String) :
    ∀ cs, ∀ p ∈ podContainerFilesSpec env nsp d pod suf cs, ∃ f, p = pathJoin d f := by
  intro cs
  induction cs with
  | nil => simp [podContainerFilesSpec]
  | cons c rest ih =>
    intro p hp
    unfold podContainerFilesSpec at hp
    rcases List.mem_append.mp hp with h | h
    · split at h
      · split at h
        · simp at h
          exact ⟨_, h⟩
        · simp at h
      · simp at h
    · exact ih p h

theorem podFilesSpec_shape (env : NsEnv) (nsp d : String) :
    ∀ pods, ∀ p ∈ podFilesSpec env nsp d pods, ∃ f, p = pathJoin d f := by
  intro pods
  induction pods with
  | nil => simp [podFilesSpec]
  | cons pod rest ih =>
    intro p hp
    unfold podFilesSpec at hp
    rcases List.mem_append.mp hp with h | h
    · split at h
      · simp at h
      · rcases List.mem_append.mp h with h1 | h1
        · exact podContainerFilesSpec_shape env nsp d pod "" _ p h1
        · exact podContainerFilesSpec_shape env nsp d pod "_init" _ p h1
    · exact ih p h

theorem actionFilesSpec_shape (env : NsEnv) (logDir : String) :
    ∀ acts, ∀ p ∈ actionFilesSpec env logDir acts, ∃ f, p = pathJoin logDir f := by
  intro acts
  induction acts with
  | nil => simp [actionFilesSpec]
  | cons a rest ih =>
    intro p hp
    rcases a with ⟨aname, afile, ares⟩
    unfold actionFilesSpec at hp
    rcases List.mem_append.mp hp with h | h
    · split at h
      · split at h
        · simp at h
          exact ⟨_, h⟩
        · simp at h
      · simp at h
    · exact ih p h

theorem stepFilesSpec_lead (env : NsEnv) (nsp logDir : String)
    (hlogs : cleanDot (pathJoin logDir "logs") = pathJoin logDir "logs") :
    ∀ p ∈ stepFilesSpec env nsp logDir, leadsWith (cleanDot logDir ++ "/") p = true := by
  intro p hp
  unfold stepFilesSpec at hp
  rcases List.mem_cons.mp hp with h | h
  · subst h
    exact leadsWith_pathJoin logDir "script.log"
  rcases List.mem_append.mp h with h1 | h1
  · unfold collectPodLogsFilesSpec at h1
    split at h1
    · split at h1
      · simp at h1
      · obtain ⟨f, hf⟩ := podFilesSpec_shape env nsp (pathJoin logDir "logs") _ p h1
        rw [hf]
        exact leadsWith_pathJoin_logs logDir f hlogs
    · simp at h1
  · unfold additionalFilesSpec at h1
    split at h1
    · obtain ⟨f, hf⟩ := actionFilesSpec_shape env logDir (runaiActions env) p h1
      rw [hf]
      exact leadsWith_pathJoin logDir f
    · split at h1
      · obtain ⟨f, hf⟩ := actionFilesSpec_shape env logDir (backendActions env) p h1
        rw [hf]
        exact leadsWith_pathJoin logDir f
      · simp at h1

theorem filesUnder_core (env : NsEnv) (nsp logDir : String) (fs : FS)
    (hfresh : filesUnder fs logDir = [])
    (hlogs : cleanDot (pathJoin logDir "logs") = pathJoin logDir "logs") :
    filesUnder (processNamespaceCore env nsp logDir fs).1 logDir =
      stepFilesSpec env nsp logDir := by
  rw [filesUnder_eq_filter]
  rw [processNamespaceCore_files, List.filter_append]
  rw [← filesUnder_eq_filter, hfresh, List.nil_append]
  exact List.filter_eq_self.mpr (stepFilesSpec_lead env nsp logDir hlogs)

/-- C2 (amended): the sealed archive contains exactly the files whose
collection step succeeded — none missing, none extra.  Entry paths differ by
bundle: the workload bundle archives each file under its working-root-relative
name, while the namespace bundle keeps the full walk path, which carries the
working-directory name as a leading piece (entries are relative to the parent
of the working root, not to the working root itself). -/
theorem archive_contains_exactly_successes (env : NsEnv) (nsp logDir archiveName : String)
    (fs : FS)
    (h1 : env.mkdirOk logDir = true) (h2 : env.createOk (pathJoin logDir "script.log") = true)
    (ha : env.archiveOk archiveName = true)
    (hfresh : filesUnder fs logDir = [])
    (hlogs : cleanDot (pathJoin logDir "logs") = pathJoin logDir "logs") :
    ((processNamespace env nsp logDir archiveName fs).evs =
        (processNamespaceCore env nsp logDir fs).2 ++
          [.archive archiveName (stepFilesSpec env nsp logDir), .removeDir logDir])
    ∧ (∀ p ∈ stepFilesSpec env nsp logDir, leadsWith (cleanDot logDir ++ "/") p = true)
    ∧ (∀ (wenv : WEnv) (an : String) (files : List String), files ≠ [] →
        wenv.createOk an = true →
        createWorkloadArchive wenv an files = (.ok (), [(an, files)])) := by
  refine ⟨?_, stepFilesSpec_lead env nsp logDir hlogs, ?_⟩
  · unfold processNamespace
    rw [if_pos h1, if_pos h2]
    dsimp only
    rw [if_pos ha]
    rw [filesUnder_core env nsp logDir fs hfresh hlogs]
  · intro wenv an files hne hcreate
    unfold createWorkloadArchive
    rw [if_neg hne, if_pos hcreate]

theorem archive_contains_exactly_successes_witness :
    (processNamespace nsEnvMissingRunai "x" "./d" "d.tar.gz" ⟨[], []⟩).evs =
      (processNamespaceCore nsEnvMissingRunai "x" "./d" ⟨[], []⟩).2 ++
        [.archive "d.tar.gz" (stepFilesSpec nsEnvMissingRunai "x" "./d"), .removeDir "./d"] :=
  (archive_contains_exactly_successes nsEnvMissingRunai "x" "./d" "d.tar.gz" ⟨[], []⟩
    rfl rfl rfl rfl rfl).1

end Nmcrun
